import Mathlib

/-!
A verification development for the stepper motion core of GRBL-Advanced
(src/grbl/Stepper.c).  The C code is shallowly embedded: machine integers
become Nat with explicit reductions modulo two to the word width where
overflow can matter, C floats become exact rationals, pointers become
Option values, and the mutable globals of Stepper.c become fields of one
explicit state record that every operation threads.

Arrays indexed by the three axes (X, Y, Z) are split into _x, _y, _z
fields.  Numeric constants that live in headers outside src (Config.h,
System.h, Settings.h, Planner.h, util.h) are modelled from the spec and
marked as such in their doc comments; their exact values never influence
the structure of the control flow that is verified here.
-/

namespace GrblStepper

/-! ## Compile-time constants -/

/-- Modelled from the spec: the stepper timer base frequency
F_TIMER_STEPPER lives in a header outside src; the spec scenarios fix it
at 24 MHz. -/
def F_TIMER_STEPPER : Nat := 24000000

/-- MAX_AMASS_LEVEL from Stepper.c. -/
def MAX_AMASS_LEVEL : Nat := 3

/-- AMASS_LEVEL1 cutoff period, F_TIMER_STEPPER / 8000 (Stepper.c). -/
def AMASS_LEVEL1 : Nat := F_TIMER_STEPPER / 8000

/-- AMASS_LEVEL2 cutoff period, F_TIMER_STEPPER / 4000 (Stepper.c). -/
def AMASS_LEVEL2 : Nat := F_TIMER_STEPPER / 4000

/-- AMASS_LEVEL3 cutoff period, F_TIMER_STEPPER / 2000 (Stepper.c). -/
def AMASS_LEVEL3 : Nat := F_TIMER_STEPPER / 2000

/-- STEP_TIMER_MIN: the build in src has no MAX_STEP_RATE_HZ override, so
the default branch F_TIMER_STEPPER / 60000 of Stepper.c applies. -/
def STEP_TIMER_MIN : Nat := F_TIMER_STEPPER / 60000

/-- Modelled from the spec: SEGMENT_BUFFER_SIZE lives in Config.h outside
src; the spec scenarios fix it at 10. -/
def SEGMENT_BUFFER_SIZE : Nat := 10

/-- Modelled from the spec: ACCELERATION_TICKS_PER_SECOND lives in
Config.h outside src; the spec fixes it at 100. -/
def ACCELERATION_TICKS_PER_SECOND : Nat := 100

/-- DT_SEGMENT = 1/(ACCELERATION_TICKS_PER_SECOND*60.0) minutes
(Stepper.c). -/
def DT_SEGMENT : ℚ := 1 / (ACCELERATION_TICKS_PER_SECOND * 60)

/-- REQ_MM_INCREMENT_SCALAR = 1.25 (Stepper.c). -/
def REQ_MM_INCREMENT_SCALAR : ℚ := 5 / 4

/-- Modelled from the spec: TICKS_PER_MICROSECOND lives in util.h outside
src; with a 24 MHz timer it is 24. -/
def TICKS_PER_MICROSECOND : Nat := F_TIMER_STEPPER / 1000000

/-- Ramp state RAMP_ACCEL (Stepper.c). -/
def RAMP_ACCEL : Nat := 0

/-- Ramp state RAMP_CRUISE (Stepper.c). -/
def RAMP_CRUISE : Nat := 1

/-- Ramp state RAMP_DECEL (Stepper.c). -/
def RAMP_DECEL : Nat := 2

/-- Ramp state RAMP_DECEL_OVERRIDE (Stepper.c). -/
def RAMP_DECEL_OVERRIDE : Nat := 3

/-- PREP_FLAG_RECALCULATE = bit 0 (Stepper.c). -/
def PREP_FLAG_RECALCULATE : Nat := 1

/-- PREP_FLAG_HOLD_PARTIAL_BLOCK = bit 1 (Stepper.c). -/
def PREP_FLAG_HOLD_PARTIAL_BLOCK : Nat := 2

/-- PREP_FLAG_PARKING = bit 2 (Stepper.c). -/
def PREP_FLAG_PARKING : Nat := 4

/-- PREP_FLAG_DECEL_OVERRIDE = bit 3 (Stepper.c). -/
def PREP_FLAG_DECEL_OVERRIDE : Nat := 8

/-- Modelled from the spec: the STEP_CONTROL bit assignments live in
System.h outside src; standard grbl order, END_MOTION is bit 0. -/
def STEP_CONTROL_END_MOTION : Nat := 1

/-- Modelled from the spec: STEP_CONTROL_EXECUTE_HOLD is bit 1. -/
def STEP_CONTROL_EXECUTE_HOLD : Nat := 2

/-- Modelled from the spec: STEP_CONTROL_EXECUTE_SYS_MOTION is bit 2. -/
def STEP_CONTROL_EXECUTE_SYS_MOTION : Nat := 4

/-- Modelled from the spec: STEP_CONTROL_UPDATE_SPINDLE_PWM is bit 3. -/
def STEP_CONTROL_UPDATE_SPINDLE_PWM : Nat := 8

/-- Modelled from the spec: machine state constants live in System.h
outside src; standard grbl values. -/
def STATE_HOMING : Nat := 4

/-- Modelled from the spec: STATE_SLEEP, standard grbl value. -/
def STATE_SLEEP : Nat := 128

/-- Modelled from the spec: settings flag bit for laser mode
(Settings.h outside src, standard grbl value). -/
def BITFLAG_LASER_MODE : Nat := 2

/-- Modelled from the spec: settings flag bit for inverted stepper
enable (Settings.h outside src, standard grbl value). -/
def BITFLAG_INVERT_ST_ENABLE : Nat := 4

/-- Modelled from the spec: planner condition flag for clockwise spindle
(Planner.h outside src, standard grbl value). -/
def PL_COND_FLAG_SPINDLE_CW : Nat := 16

/-- Modelled from the spec: planner condition flag for counterclockwise
spindle (Planner.h outside src, standard grbl value). -/
def PL_COND_FLAG_SPINDLE_CCW : Nat := 32

/-- Modelled from the spec: SPINDLE_PWM_OFF_VALUE (SpindleControl.h
outside src). -/
def SPINDLE_PWM_OFF_VALUE : Nat := 0

/-- Step pin bit for the X axis; the concrete pin mapping lives in a
header outside src, the claims only need the three bits distinct. -/
def X_STEP_BIT : Nat := 0

/-- Step pin bit for the Y axis. -/
def Y_STEP_BIT : Nat := 1

/-- Step pin bit for the Z axis. -/
def Z_STEP_BIT : Nat := 2

/-- Direction pin bit for the X axis. -/
def X_DIRECTION_BIT : Nat := 0

/-- Direction pin bit for the Y axis. -/
def Y_DIRECTION_BIT : Nat := 1

/-- Direction pin bit for the Z axis. -/
def Z_DIRECTION_BIT : Nat := 2

/-- Modulus of a 32-bit machine word. -/
def U32 : Nat := 4294967296

/-- Modulus of a 16-bit machine word. -/
def U16 : Nat := 65536

/-! ## Data structures (Stepper.c typedefs and collaborators) -/

/-- The relevant fields of the persistent settings record (Settings.h). -/
structure Settings_t where
  step_invert_mask : Nat
  dir_invert_mask : Nat
  stepper_idle_lock_time : Nat
  flags : Nat
  deriving Repr, DecidableEq

/-- Planner_Block_t, the externally supplied planner block; only the
fields Stepper.c reads or writes are modelled. -/
structure Planner_Block_t where
  steps_x : Nat
  steps_y : Nat
  steps_z : Nat
  step_event_count : Nat
  direction_bits : Nat
  condition : Nat
  millimeters : ℚ
  acceleration : ℚ
  entry_speed_sqr : ℚ
  programmed_rate : ℚ
  spindle_speed : ℚ
  backlash_motion : Bool
  deriving Repr, DecidableEq

/-- Stepper_Block_t: the pooled Bresenham data for one planner block,
pre-scaled by MAX_AMASS_LEVEL. -/
structure Stepper_Block_t where
  steps_x : Nat
  steps_y : Nat
  steps_z : Nat
  step_event_count : Nat
  direction_bits : Nat
  is_pwm_rate_adjusted : Bool
  deriving Repr, DecidableEq

/-- Stepper_Segment_t: one entry of the segment ring buffer. -/
structure Stepper_Segment_t where
  n_step : Nat
  cycles_per_tick : Nat
  st_block_index : Nat
  amass_level : Nat
  spindle_pwm : Nat
  backlash_motion : Bool
  deriving Repr, DecidableEq

/-- Stepper_PrepData_t: the segment preparation state (floats become
rationals). -/
structure Stepper_PrepData_t where
  st_block_index : Nat
  recalculate_flag : Nat
  dt_remainder : ℚ
  steps_remaining : ℚ
  step_per_mm : ℚ
  req_mm_increment : ℚ
  ramp_type : Nat
  mm_complete : ℚ
  current_speed : ℚ
  maximum_speed : ℚ
  exit_speed : ℚ
  accelerate_until : ℚ
  decelerate_after : ℚ
  inv_rate : ℚ
  current_spindle_pwm : Nat
  deriving Repr, DecidableEq

/-- The mutable globals of Stepper.c plus the system and hardware state
they interact with, gathered into one record.  The segment ring and the
stepper block pool are total functions on Nat; only indices below
SEGMENT_BUFFER_SIZE (resp. SEGMENT_BUFFER_SIZE - 1) are ever used. -/
structure MachineState where
  -- Stepper_t st
  counter_x : Nat
  counter_y : Nat
  counter_z : Nat
  step_outbits : Nat
  dir_outbits : Nat
  steps_x : Nat
  steps_y : Nat
  steps_z : Nat
  step_count : Nat
  exec_block_index : Nat
  exec_block : Option Stepper_Block_t
  exec_segment : Option Stepper_Segment_t
  -- segment ring buffer and indices
  segment_buffer : Nat → Stepper_Segment_t
  segment_buffer_tail : Nat
  segment_buffer_head : Nat
  segment_next_head : Nat
  -- stepper block pool
  st_block_buffer : Nat → Stepper_Block_t
  -- preparer state
  pl_block : Option Planner_Block_t
  prep : Stepper_PrepData_t
  -- port invert masks
  step_port_invert_mask : Nat
  dir_port_invert_mask : Nat
  -- system state observed or written by the core
  settings : Settings_t
  sys_state : Nat
  sys_step_control : Nat
  homing_axis_lock : Nat
  sys_rt_exec_alarm : Nat
  sys_spindle_speed : ℚ
  sys_position_x : Int
  sys_position_y : Int
  sys_position_z : Int
  cycle_stop : Bool
  -- hardware mirror
  tim_enabled : Bool
  tim_arr : Nat
  tim_ccr1 : Nat
  spindle_pwm_out : Nat
  enable_pin_high : Bool

/-- External collaborators of the preparer: planner queries, the spindle
PWM computation, and the square root on the float model. -/
structure PlannerEnv where
  system_motion_block : Option Planner_Block_t
  current_block : Option Planner_Block_t
  exec_block_exit_speed_sqr : ℚ
  nominal_speed : Planner_Block_t → ℚ
  sqrtq : ℚ → ℚ
  compute_pwm : ℚ → Nat

/-! ## Control facade helpers -/

/-- Stepper_NextBlockIndex (Stepper.c): advance an index in the stepper
block pool of size SEGMENT_BUFFER_SIZE - 1. -/
def stepperNextBlockIndex (block_index : Nat) : Nat :=
  if block_index + 1 = SEGMENT_BUFFER_SIZE - 1 then 0 else block_index + 1

/-- The idle decision of Stepper_Disable (Stepper.c lines 263-276): true
when the drivers are to be disabled, before applying the invert-enable
setting. -/
def stepperDisablePinState (st : Settings_t) (state alarm ovr : Nat) : Bool :=
  let pin1 : Bool :=
    if (st.stepper_idle_lock_time ≠ 255 ∨ alarm ≠ 0 ∨ state = STATE_SLEEP)
        ∧ state ≠ STATE_HOMING then true else false
  if ovr ≠ 0 then true else pin1

/-- The observable outcome of Stepper_Disable: the pre-invert disable
decision, the dwell performed before disabling (in ms), and the final
level of the enable pin after the invert-enable setting. -/
structure DisableResult where
  pin_state : Bool
  dwell_ms : Option Nat
  enable_pin_high : Bool
  deriving Repr, DecidableEq

/-- Stepper_Disable (Stepper.c lines 253-288) as a pure function of the
settings, the machine state word, the realtime alarm word and the
ovr_disable argument.  The timer stop and the step pin reset have no
core-state content beyond tim_enabled, handled by the callers. -/
def stepperDisable (st : Settings_t) (state alarm ovr : Nat) : DisableResult :=
  let dwell : Option Nat :=
    if (st.stepper_idle_lock_time ≠ 255 ∨ alarm ≠ 0 ∨ state = STATE_SLEEP)
        ∧ state ≠ STATE_HOMING then some st.stepper_idle_lock_time else none
  let pin_state := stepperDisablePinState st state alarm ovr
  { pin_state := pin_state
    dwell_ms := dwell
    enable_pin_high := xor pin_state (st.flags &&& BITFLAG_INVERT_ST_ENABLE != 0) }

/-- Stepper_GenerateStepDirInvertMasks (Stepper.c lines 645-661); the
per-axis pin masks of the missing pin-map header are modelled as the
single bits 2^idx. -/
def generateMask (m : Nat) : Nat :=
  (List.range 3).foldl (fun acc idx => if m.testBit idx then acc ||| (1 <<< idx) else acc) 0

/-! ## The stepper driver interrupt -/

/-- One Bresenham axis of the Stepper_MainISR body (the repeated pattern
of Stepper.c lines 511-568): add the increment to the 32-bit counter, on
strictly exceeding step_event_count emit a step, subtract, and track the
machine position unless the segment is a backlash move.  Returns the new
counter, the new position, and whether a step was emitted. -/
def axisTick (sec inc : Nat) (backlash dirSet : Bool) (c : Nat) (pos : Int) :
    Nat × Int × Bool :=
  let c1 := (c + inc) % U32
  if sec < c1 then
    (c1 - sec,
     if backlash then pos else if dirSet then pos - 1 else pos + 1,
     true)
  else (c1, pos, false)

/-- The Bresenham and bookkeeping part of Stepper_MainISR (Stepper.c
lines 502-584).  Probe polling is an external call without core-state
effect and is not modelled.  The uint16 step_count decrement wraps when
it is already zero, as in C. -/
def bresPhase (s : MachineState) (seg : Stepper_Segment_t)
    (blk : Stepper_Block_t) : MachineState :=
  let tx := axisTick blk.step_event_count s.steps_x seg.backlash_motion
    (blk.direction_bits.testBit X_DIRECTION_BIT) s.counter_x s.sys_position_x
  let ty := axisTick blk.step_event_count s.steps_y seg.backlash_motion
    (blk.direction_bits.testBit Y_DIRECTION_BIT) s.counter_y s.sys_position_y
  let tz := axisTick blk.step_event_count s.steps_z seg.backlash_motion
    (blk.direction_bits.testBit Z_DIRECTION_BIT) s.counter_z s.sys_position_z
  let outbits := (if tx.2.2 then 1 <<< X_STEP_BIT else 0)
    ||| (if ty.2.2 then 1 <<< Y_STEP_BIT else 0)
    ||| (if tz.2.2 then 1 <<< Z_STEP_BIT else 0)
  let outbits := if s.sys_state = STATE_HOMING then outbits &&& s.homing_axis_lock
    else outbits
  let sc := if s.step_count = 0 then U16 - 1 else s.step_count - 1
  if sc = 0 then
    { s with counter_x := tx.1, counter_y := ty.1, counter_z := tz.1,
             sys_position_x := tx.2.1, sys_position_y := ty.2.1,
             sys_position_z := tz.2.1,
             step_outbits := outbits, step_count := sc,
             exec_segment := none,
             segment_buffer_tail :=
               if s.segment_buffer_tail + 1 = SEGMENT_BUFFER_SIZE then 0
               else s.segment_buffer_tail + 1 }
  else
    { s with counter_x := tx.1, counter_y := ty.1, counter_z := tz.1,
             sys_position_x := tx.2.1, sys_position_y := ty.2.1,
             sys_position_z := tz.2.1,
             step_outbits := outbits, step_count := sc }

/-- The STEP_TIMER_MIN floor applied by the ISR to the segment it is
about to execute (Stepper.c lines 401-403). -/
def clampSegment (seg : Stepper_Segment_t) : Stepper_Segment_t :=
  { seg with cycles_per_tick :=
      if seg.cycles_per_tick < STEP_TIMER_MIN then STEP_TIMER_MIN
      else seg.cycles_per_tick }

/-- The segment-load arm of Stepper_MainISR (Stepper.c lines 393-486) for
a non-empty ring: clamp the stored cycles_per_tick in place, program the
timer registers, load the step count, on a block index change re-point
exec_block and reset the Bresenham counters to half the event count,
latch the direction bits and the AMASS-shifted axis increments, and push
the segment PWM.  Returns none when the C code would read the direction
bits through a null exec_block pointer. -/
def loadSegment (s : MachineState) : Option MachineState :=
  let seg0 := s.segment_buffer s.segment_buffer_tail
  let seg := clampSegment seg0
  let s1 : MachineState := { s with
    segment_buffer := fun i =>
      if i = s.segment_buffer_tail then seg else s.segment_buffer i,
    exec_segment := some seg,
    tim_arr := seg.cycles_per_tick,
    tim_ccr1 := seg.cycles_per_tick * 3 / 4,
    step_count := seg.n_step }
  let s2 : MachineState :=
    if s1.exec_block_index ≠ seg.st_block_index then
      let blk := s1.st_block_buffer seg.st_block_index
      { s1 with exec_block_index := seg.st_block_index,
                exec_block := some blk,
                counter_x := blk.step_event_count >>> 1,
                counter_y := blk.step_event_count >>> 1,
                counter_z := blk.step_event_count >>> 1 }
    else s1
  match s2.exec_block with
  | none => none
  | some blk =>
    some { s2 with dir_outbits := blk.direction_bits ^^^ s2.dir_port_invert_mask,
                   steps_x := blk.steps_x >>> seg.amass_level,
                   steps_y := blk.steps_y >>> seg.amass_level,
                   steps_z := blk.steps_z >>> seg.amass_level,
                   spindle_pwm_out := seg.spindle_pwm }

/-- The empty-ring arm of Stepper_MainISR (Stepper.c lines 487-498):
shut the steppers down, force the spindle PWM off for a rate-adjusted
block, and flag cycle stop.  The read of is_pwm_rate_adjusted goes
through the exec_block pointer: the result is none when that pointer is
null, which in C is an undefined dereference. -/
def isrIdle (s : MachineState) : Option MachineState :=
  let d := stepperDisable s.settings s.sys_state s.sys_rt_exec_alarm 0
  let s1 : MachineState :=
    { s with tim_enabled := false, enable_pin_high := d.enable_pin_high }
  match s1.exec_block with
  | none => none
  | some blk =>
    some { s1 with
      spindle_pwm_out := if blk.is_pwm_rate_adjusted then SPINDLE_PWM_OFF_VALUE
        else s1.spindle_pwm_out,
      cycle_stop := true }

/-- Stepper_MainISR (Stepper.c lines 336-584).  The pulse output phase at
entry only drives pins from the previously latched step_outbits and does
not change core state, so it is not modelled as a state change.  The
result is none exactly when the C code would dereference a null
pointer. -/
def stepperMainISR (s : MachineState) : Option MachineState :=
  match s.exec_segment with
  | none =>
    if s.segment_buffer_head ≠ s.segment_buffer_tail then
      match loadSegment s with
      | none => none
      | some s' =>
        match s'.exec_segment, s'.exec_block with
        | some seg, some blk => some (bresPhase s' seg blk)
        | _, _ => none
    else isrIdle s
  | some seg =>
    match s.exec_block with
    | none => none
    | some blk => some (bresPhase s seg blk)

/-- Iterated ISR ticks; none as soon as a tick is undefined. -/
def isrRun : Nat → MachineState → Option MachineState
  | 0, s => some s
  | n + 1, s =>
    match stepperMainISR s with
    | none => none
    | some s' => isrRun n s'

/-! ## Reset and planner update hook -/

/-- Stepper_Reset (Stepper.c lines 665-706): disable the drivers, zero
the prep and ISR state, reset the ring indices, regenerate the invert
masks.  GPIO pin resets are not tracked beyond the recorded masks. -/
def stepperReset (s : MachineState) : MachineState :=
  let d := stepperDisable s.settings s.sys_state s.sys_rt_exec_alarm 0
  let spim := generateMask s.settings.step_invert_mask
  let dpim := generateMask s.settings.dir_invert_mask
  { s with
    tim_enabled := false, enable_pin_high := d.enable_pin_high,
    prep := { st_block_index := 0, recalculate_flag := 0, dt_remainder := 0,
              steps_remaining := 0, step_per_mm := 0, req_mm_increment := 0,
              ramp_type := 0, mm_complete := 0, current_speed := 0,
              maximum_speed := 0, exit_speed := 0, accelerate_until := 0,
              decelerate_after := 0, inv_rate := 0, current_spindle_pwm := 0 },
    counter_x := 0, counter_y := 0, counter_z := 0,
    step_outbits := 0, steps_x := 0, steps_y := 0, steps_z := 0,
    step_count := 0, exec_block_index := 0,
    exec_block := none, exec_segment := none,
    pl_block := none,
    segment_buffer_tail := 0, segment_buffer_head := 0, segment_next_head := 1,
    step_port_invert_mask := spim, dir_port_invert_mask := dpim,
    dir_outbits := dpim }

/-- Stepper_UpdatePlannerBlockParams (Stepper.c lines 710-717).  The
write into the planner block through the pl_block pointer is surfaced as
the second component: the block handed back to the planner with its
updated entry speed; none when no block was in flight. -/
def stepperUpdatePlannerBlockParams (s : MachineState) :
    MachineState × Option Planner_Block_t :=
  match s.pl_block with
  | none => (s, none)
  | some blk =>
    let prep1 := { s.prep with
      recalculate_flag := s.prep.recalculate_flag ||| PREP_FLAG_RECALCULATE }
    let blk1 := { blk with
      entry_speed_sqr := s.prep.current_speed * s.prep.current_speed }
    ({ s with prep := prep1, pl_block := none }, some blk1)

/-! ## The segment preparer -/

/-- The n_step computation of Stepper_PrepareBuffer (Stepper.c lines
1143-1146): the number of whole steps carved out of the block by this
segment, as the difference of two rounded-up step counts, stored into a
uint16.  A negative float-to-unsigned conversion is undefined in C; it
is modelled as clamping at zero before the 16-bit reduction. -/
def computeNStep0 (steps_remaining step_per_mm mm_remaining : ℚ) : Nat :=
  ((Int.ceil steps_remaining - Int.ceil (step_per_mm * mm_remaining)).toNat) % U16

/-- The AMASS level selection and shifts (Stepper.c lines 1180-1196):
returns the level, the right-shifted cycle count and the left-shifted
16-bit step count. -/
def amassAdjust (cycles n_step : Nat) : Nat × Nat × Nat :=
  if cycles < AMASS_LEVEL1 then (0, cycles, n_step)
  else
    let level := if cycles < AMASS_LEVEL2 then 1
      else if cycles < AMASS_LEVEL3 then 2 else 3
    (level, cycles >>> level, (n_step <<< level) % U16)

/-- The 16-bit clamp of the cycle count (Stepper.c lines 1198-1205). -/
def clampCyclesPerTick (cycles : Nat) : Nat :=
  if cycles < U16 then cycles else U16 - 1

/-- The read-only data of the segment carving loop. -/
structure CarveParams where
  acceleration : ℚ
  millimeters : ℚ
  accelerate_until : ℚ
  decelerate_after : ℚ
  maximum_speed : ℚ
  exit_speed : ℚ
  mm_complete : ℚ
  minimum_mm : ℚ
  deriving Repr, DecidableEq

/-- The loop-carried data of the segment carving loop; brk records that
the loop left through its break statement. -/
structure CarveState where
  ramp_type : Nat
  current_speed : ℚ
  mm_remaining : ℚ
  dt : ℚ
  dt_max : ℚ
  time_var : ℚ
  brk : Bool
  deriving Repr, DecidableEq

/-- The ramp-state switch of the carving loop (Stepper.c lines
1009-1085). -/
def rampSwitch (p : CarveParams) (cs : CarveState) : CarveState :=
  if cs.ramp_type = RAMP_DECEL_OVERRIDE then
    let speed_var := p.acceleration * cs.time_var
    let mm_var := cs.time_var * (cs.current_speed - speed_var / 2)
    let mm1 := cs.mm_remaining - mm_var
    if mm1 < p.accelerate_until ∨ mm_var ≤ 0 then
      { cs with mm_remaining := p.accelerate_until,
                time_var := 2 * (p.millimeters - p.accelerate_until)
                  / (cs.current_speed + p.maximum_speed),
                ramp_type := RAMP_CRUISE,
                current_speed := p.maximum_speed }
    else
      { cs with mm_remaining := mm1,
                current_speed := cs.current_speed - speed_var }
  else if cs.ramp_type = RAMP_ACCEL then
    let speed_var := p.acceleration * cs.time_var
    let mm1 := cs.mm_remaining - cs.time_var * (cs.current_speed + speed_var / 2)
    if mm1 < p.accelerate_until then
      { cs with mm_remaining := p.accelerate_until,
                time_var := 2 * (p.millimeters - p.accelerate_until)
                  / (cs.current_speed + p.maximum_speed),
                ramp_type := if p.accelerate_until = p.decelerate_after
                  then RAMP_DECEL else RAMP_CRUISE,
                current_speed := p.maximum_speed }
    else
      { cs with mm_remaining := mm1,
                current_speed := cs.current_speed + speed_var }
  else if cs.ramp_type = RAMP_CRUISE then
    let mm_var := cs.mm_remaining - p.maximum_speed * cs.time_var
    if mm_var < p.decelerate_after then
      { cs with time_var := (cs.mm_remaining - p.decelerate_after) / p.maximum_speed,
                mm_remaining := p.decelerate_after,
                ramp_type := RAMP_DECEL }
    else
      { cs with mm_remaining := mm_var }
  else
    -- default arm: RAMP_DECEL
    let speed_var := p.acceleration * cs.time_var
    let typical : Option CarveState :=
      if speed_var < cs.current_speed then
        let mm_var := cs.mm_remaining - cs.time_var * (cs.current_speed - speed_var / 2)
        if p.mm_complete < mm_var then
          some { cs with mm_remaining := mm_var,
                         current_speed := cs.current_speed - speed_var }
        else none
      else none
    match typical with
    | some cs1 => cs1
    | none =>
      { cs with time_var := 2 * (cs.mm_remaining - p.mm_complete)
                  / (cs.current_speed + p.exit_speed),
                mm_remaining := p.mm_complete,
                current_speed := p.exit_speed }

/-- One pass of the carving do-while body: the ramp switch followed by
the segment-time bookkeeping of Stepper.c lines 1087-1102. -/
def carveStep (p : CarveParams) (cs : CarveState) : CarveState :=
  let cs1 := rampSwitch p cs
  let dt1 := cs1.dt + cs1.time_var
  if dt1 < cs1.dt_max then
    { cs1 with dt := dt1, time_var := cs1.dt_max - dt1 }
  else if p.minimum_mm < cs1.mm_remaining then
    let dm := cs1.dt_max + DT_SEGMENT
    { cs1 with dt := dt1, dt_max := dm, time_var := dm - dt1 }
  else
    { cs1 with dt := dt1, brk := true }

/-- The carving do-while loop (Stepper.c lines 1009-1103), with explicit
fuel since the rational model cannot carry the termination argument of
the float original. -/
def carveLoop (p : CarveParams) : Nat → CarveState → CarveState
  | 0, cs => cs
  | n + 1, cs =>
    let cs1 := carveStep p cs
    if cs1.brk then cs1
    else if p.mm_complete < cs1.mm_remaining then carveLoop p n cs1
    else cs1

/-- The velocity-profile computation for a freshly acquired or
recomputed planner block (Stepper.c lines 877-970). -/
def computeProfile (env : PlannerEnv) (step_control : Nat)
    (blk : Planner_Block_t) (prep0 : Stepper_PrepData_t) : Stepper_PrepData_t :=
  let prep := { prep0 with mm_complete := 0 }
  let inv_2_accel : ℚ := 1 / (2 * blk.acceleration)
  if step_control &&& STEP_CONTROL_EXECUTE_HOLD != 0 then
    let prep1 := { prep with ramp_type := RAMP_DECEL }
    let decel_dist := blk.millimeters - inv_2_accel * blk.entry_speed_sqr
    if decel_dist < 0 then
      { prep1 with exit_speed :=
          env.sqrtq (blk.entry_speed_sqr - 2 * blk.acceleration * blk.millimeters) }
    else
      { prep1 with mm_complete := decel_dist, exit_speed := 0 }
  else
    let prep1 := { prep with ramp_type := RAMP_ACCEL,
                             accelerate_until := blk.millimeters }
    let esq : ℚ × ℚ :=
      if step_control &&& STEP_CONTROL_EXECUTE_SYS_MOTION != 0 then (0, 0)
      else (env.sqrtq env.exec_block_exit_speed_sqr, env.exec_block_exit_speed_sqr)
    let prep2 := { prep1 with exit_speed := esq.1 }
    let exit_speed_sqr := esq.2
    let nominal_speed := env.nominal_speed blk
    let nominal_speed_sqr := nominal_speed * nominal_speed
    let intersect_distance :=
      (blk.millimeters + inv_2_accel * (blk.entry_speed_sqr - exit_speed_sqr)) / 2
    if nominal_speed_sqr < blk.entry_speed_sqr then
      let au := blk.millimeters - inv_2_accel * (blk.entry_speed_sqr - nominal_speed_sqr)
      let prep3 := { prep2 with accelerate_until := au }
      if au ≤ 0 then
        { prep3 with ramp_type := RAMP_DECEL,
                     exit_speed := env.sqrtq
                       (blk.entry_speed_sqr - 2 * blk.acceleration * blk.millimeters),
                     recalculate_flag :=
                       prep3.recalculate_flag ||| PREP_FLAG_DECEL_OVERRIDE }
      else
        { prep3 with decelerate_after := inv_2_accel * (nominal_speed_sqr - exit_speed_sqr),
                     maximum_speed := nominal_speed,
                     ramp_type := RAMP_DECEL_OVERRIDE }
    else if 0 < intersect_distance then
      if intersect_distance < blk.millimeters then
        let da := inv_2_accel * (nominal_speed_sqr - exit_speed_sqr)
        let prep3 := { prep2 with decelerate_after := da }
        if da < intersect_distance then
          let prep4 := { prep3 with maximum_speed := nominal_speed }
          if blk.entry_speed_sqr = nominal_speed_sqr then
            { prep4 with ramp_type := RAMP_CRUISE }
          else
            { prep4 with accelerate_until := prep4.accelerate_until
                - inv_2_accel * (nominal_speed_sqr - blk.entry_speed_sqr) }
        else
          { prep3 with accelerate_until := intersect_distance,
                       decelerate_after := intersect_distance,
                       maximum_speed := env.sqrtq
                         (2 * blk.acceleration * intersect_distance + exit_speed_sqr) }
      else
        { prep2 with ramp_type := RAMP_DECEL }
    else
      { prep2 with accelerate_until := 0, maximum_speed := prep2.exit_speed }

/-- The planner-block acquisition of Stepper_PrepareBuffer (Stepper.c
lines 795-973), entered when pl_block is null: query the planner, and on
success either clear the recompute flag or load fresh Bresenham data,
then compute the velocity profile.  The result is none exactly when the
planner has no block, where the C function returns.  Bit clears on the
uint8 flag words are written as masking with 247 = 255 - 8. -/
def loadNewBlock (env : PlannerEnv) (s : MachineState) : Option MachineState :=
  let blkq : Option Planner_Block_t :=
    if s.sys_step_control &&& STEP_CONTROL_EXECUTE_SYS_MOTION != 0 then
      env.system_motion_block
    else env.current_block
  match blkq with
  | none => none
  | some blk0 =>
    if s.prep.recalculate_flag &&& PREP_FLAG_RECALCULATE != 0 then
      let prep1 := { s.prep with recalculate_flag := 0 }
      let prep2 := computeProfile env s.sys_step_control blk0 prep1
      let sc1 := s.sys_step_control ||| STEP_CONTROL_UPDATE_SPINDLE_PWM
      some { s with pl_block := some blk0, prep := prep2, sys_step_control := sc1 }
    else
      let idx := stepperNextBlockIndex s.prep.st_block_index
      let stb : Stepper_Block_t := {
        steps_x := (blk0.steps_x <<< MAX_AMASS_LEVEL) % U32,
        steps_y := (blk0.steps_y <<< MAX_AMASS_LEVEL) % U32,
        steps_z := (blk0.steps_z <<< MAX_AMASS_LEVEL) % U32,
        step_event_count := (blk0.step_event_count <<< MAX_AMASS_LEVEL) % U32,
        direction_bits := blk0.direction_bits,
        is_pwm_rate_adjusted := false }
      let steps_remaining : ℚ := blk0.step_event_count
      let step_per_mm := steps_remaining / blk0.millimeters
      let prep1 := { s.prep with
        st_block_index := idx,
        steps_remaining := steps_remaining,
        step_per_mm := step_per_mm,
        req_mm_increment := REQ_MM_INCREMENT_SCALAR / step_per_mm,
        dt_remainder := 0 }
      let hv : Bool := (s.sys_step_control &&& STEP_CONTROL_EXECUTE_HOLD != 0)
        || (prep1.recalculate_flag &&& PREP_FLAG_DECEL_OVERRIDE != 0)
      let blk1 := if hv then
          { blk0 with entry_speed_sqr := prep1.exit_speed * prep1.exit_speed }
        else blk0
      let prep2 := if hv then
          { prep1 with current_speed := prep1.exit_speed,
                       recalculate_flag := prep1.recalculate_flag &&& 247 }
        else
          { prep1 with current_speed := env.sqrtq blk0.entry_speed_sqr }
      let laser : Bool := (s.settings.flags &&& BITFLAG_LASER_MODE != 0)
        && (blk1.condition &&& PL_COND_FLAG_SPINDLE_CCW != 0)
      let stb1 := { stb with is_pwm_rate_adjusted := laser }
      let prep3 := if laser then
          { prep2 with inv_rate := 1 / blk1.programmed_rate }
        else prep2
      let prep4 := computeProfile env s.sys_step_control blk1 prep3
      some { s with
        pl_block := some blk1,
        prep := prep4,
        st_block_buffer := fun i => if i = idx then stb1 else s.st_block_buffer i,
        sys_step_control :=
          s.sys_step_control ||| STEP_CONTROL_UPDATE_SPINDLE_PWM }

/-- The outcome of one pass of the preparer while-loop body: either the
function returns, or the loop goes round again. -/
inductive PrepOutcome where
  | ret (s : MachineState)
  | cont (s : MachineState)

/-- Write-through of the segment slot at the ring head, the slot the
preparer is currently building (prep_segment in Stepper.c). -/
def updateSlot (s : MachineState) (f : Stepper_Segment_t → Stepper_Segment_t) :
    MachineState :=
  let seg := f (s.segment_buffer s.segment_buffer_head)
  { s with segment_buffer := fun i =>
      if i = s.segment_buffer_head then seg else s.segment_buffer i }

/-- Segment init (Stepper.c lines 976-981): point the head slot at the
current stepper block and record the backlash flag. -/
def prepSegInit (s1 : MachineState) (blk : Planner_Block_t) : MachineState :=
  updateSlot s1 (fun sg => { sg with
    st_block_index := s1.prep.st_block_index,
    backlash_motion := blk.backlash_motion })

/-- The read-only carve parameters drawn from the prep state and the
planner block (Stepper.c lines 997-1007). -/
def prepCarveParams (s2 : MachineState) (blk : Planner_Block_t) : CarveParams :=
  let minmm0 := blk.millimeters - s2.prep.req_mm_increment
  { acceleration := blk.acceleration, millimeters := blk.millimeters,
    accelerate_until := s2.prep.accelerate_until,
    decelerate_after := s2.prep.decelerate_after,
    maximum_speed := s2.prep.maximum_speed,
    exit_speed := s2.prep.exit_speed,
    mm_complete := s2.prep.mm_complete,
    minimum_mm := if minmm0 < 0 then 0 else minmm0 }

/-- The initial carve state (Stepper.c lines 997-1002). -/
def prepCarveInit (s2 : MachineState) (blk : Planner_Block_t) : CarveState :=
  { ramp_type := s2.prep.ramp_type, current_speed := s2.prep.current_speed,
    mm_remaining := blk.millimeters, dt := 0, dt_max := DT_SEGMENT,
    time_var := DT_SEGMENT, brk := false }

/-- The spindle PWM section (Stepper.c lines 1109-1128). -/
def prepPwm (env : PlannerEnv) (blk : Planner_Block_t) (s3 : MachineState) :
    MachineState :=
  let stb := s3.st_block_buffer s3.prep.st_block_index
  if stb.is_pwm_rate_adjusted
      || (s3.sys_step_control &&& STEP_CONTROL_UPDATE_SPINDLE_PWM != 0) then
    if blk.condition &&& (PL_COND_FLAG_SPINDLE_CW ||| PL_COND_FLAG_SPINDLE_CCW) != 0 then
      let rpm0 := blk.spindle_speed
      let rpm := if stb.is_pwm_rate_adjusted then
          rpm0 * (s3.prep.current_speed * s3.prep.inv_rate)
        else rpm0
      let prepA := { s3.prep with current_spindle_pwm := env.compute_pwm rpm }
      { s3 with prep := prepA, sys_step_control := s3.sys_step_control &&& 247 }
    else
      let prepB := { s3.prep with current_spindle_pwm := SPINDLE_PWM_OFF_VALUE }
      let scB := s3.sys_step_control &&& 247
      { s3 with sys_spindle_speed := 0, prep := prepB, sys_step_control := scB }
  else s3

/-- Advance of the ring head indices at segment commit (Stepper.c lines
1207-1211). -/
def commitSegment (s : MachineState) : MachineState :=
  { s with segment_buffer_head := s.segment_next_head,
           segment_next_head :=
             if s.segment_next_head + 1 = SEGMENT_BUFFER_SIZE then 0
             else s.segment_next_head + 1 }

/-- The adjusted cycles-per-step computation of the preparer (Stepper.c
lines 1171-1176): the segment time including the previous partial-step
remainder divided by the steps carved, scaled to timer cycles, rounded
up, reduced to uint32. -/
def prepCycles (s5 : MachineState) (cs : CarveState) : Nat :=
  let step_dist_remaining := s5.prep.step_per_mm * cs.mm_remaining
  let last_n_steps_remaining : ℚ := ((Int.ceil s5.prep.steps_remaining : ℤ) : ℚ)
  let dt1 := cs.dt + s5.prep.dt_remainder
  let inv_rate := dt1 / (last_n_steps_remaining - step_dist_remaining)
  (Int.ceil (((TICKS_PER_MICROSECOND * 1000000 * 60 : Nat) : ℚ) * inv_rate)).toNat % U32

/-- The step count, rate, AMASS, commit and exit-condition tail of the
preparer loop body (Stepper.c lines 1143-1244).  Planner_DiscardCurrentBlock
is an external planner effect with no core state. -/
def prepFinish (blk : Planner_Block_t) (cs : CarveState)
    (s5 : MachineState) : PrepOutcome :=
  let mm_remaining := cs.mm_remaining
  let step_dist_remaining := s5.prep.step_per_mm * mm_remaining
  let n_steps_remaining : ℚ := ((Int.ceil step_dist_remaining : ℤ) : ℚ)
  let last_n_steps_remaining : ℚ := ((Int.ceil s5.prep.steps_remaining : ℤ) : ℚ)
  let n_step0 : Nat :=
    computeNStep0 s5.prep.steps_remaining s5.prep.step_per_mm mm_remaining
  let s6 := updateSlot s5 (fun sg => { sg with n_step := n_step0 })
  if (n_step0 == 0) && (s6.sys_step_control &&& STEP_CONTROL_EXECUTE_HOLD != 0) then
    PrepOutcome.ret { s6 with
      sys_step_control := s6.sys_step_control ||| STEP_CONTROL_END_MOTION }
  else
    let dt1 := cs.dt + s6.prep.dt_remainder
    let inv_rate := dt1 / (last_n_steps_remaining - step_dist_remaining)
    let cycles : Nat := prepCycles s5 cs
    let am := amassAdjust cycles n_step0
    let cpt := clampCyclesPerTick am.2.1
    let s7 := updateSlot s6 (fun sg => { sg with
      amass_level := am.1, n_step := am.2.2, cycles_per_tick := cpt })
    let s8 := commitSegment s7
    let blk2 := { blk with millimeters := mm_remaining }
    let prep9 := { s8.prep with
      steps_remaining := n_steps_remaining,
      dt_remainder := (n_steps_remaining - step_dist_remaining) * inv_rate }
    let s9 := { s8 with pl_block := some blk2, prep := prep9 }
    if mm_remaining = s9.prep.mm_complete then
      if 0 < mm_remaining then
        PrepOutcome.ret { s9 with
          sys_step_control := s9.sys_step_control ||| STEP_CONTROL_END_MOTION }
      else if s9.sys_step_control &&& STEP_CONTROL_EXECUTE_SYS_MOTION != 0 then
        PrepOutcome.ret { s9 with
          sys_step_control := s9.sys_step_control ||| STEP_CONTROL_END_MOTION }
      else
        PrepOutcome.cont { s9 with pl_block := none }
    else
      PrepOutcome.cont s9

/-- One pass of the while-loop body of Stepper_PrepareBuffer (Stepper.c
lines 794-1244): acquire a block if needed, carve one segment, compute
its PWM, step count, rate and AMASS level, commit it to the ring, and
evaluate the exit conditions. -/
def prepOne (env : PlannerEnv) (carveFuel : Nat) (s : MachineState) : PrepOutcome :=
  let acquired : Option MachineState :=
    match s.pl_block with
    | some _ => some s
    | none => loadNewBlock env s
  match acquired with
  | none => PrepOutcome.ret s
  | some s1 =>
    match s1.pl_block with
    | none => PrepOutcome.ret s1
    | some blk =>
      let s2 := prepSegInit s1 blk
      let cs := carveLoop (prepCarveParams s2 blk) carveFuel (prepCarveInit s2 blk)
      let prep3 := { s2.prep with
        ramp_type := cs.ramp_type, current_speed := cs.current_speed }
      let s3 := { s2 with prep := prep3 }
      let s4 := prepPwm env blk s3
      let s5 := updateSlot s4 (fun sg => { sg with
        spindle_pwm := s4.prep.current_spindle_pwm })
      prepFinish blk cs s5

/-- The while loop of Stepper_PrepareBuffer with explicit fuel. -/
def prepLoop (env : PlannerEnv) (carveFuel : Nat) :
    Nat → MachineState → MachineState
  | 0, s => s
  | n + 1, s =>
    if s.segment_buffer_tail ≠ s.segment_next_head then
      match prepOne env carveFuel s with
      | PrepOutcome.ret s1 => s1
      | PrepOutcome.cont s1 => prepLoop env carveFuel n s1
    else s

/-- Stepper_PrepareBuffer (Stepper.c lines 786-1246).  The two fuel
arguments bound the while loop and the inner carving do-while loop; the
C originals terminate by float arithmetic that the rational model cannot
replay, and every theorem below is insensitive to the fuel values. -/
def stepperPrepareBuffer (env : PlannerEnv) (loopFuel carveFuel : Nat)
    (s : MachineState) : MachineState :=
  if s.sys_step_control &&& STEP_CONTROL_END_MOTION != 0 then s
  else prepLoop env carveFuel loopFuel s

/-! ## Derived notions used by the statements -/

/-- The state carried by a preparer-loop outcome. -/
def prepOutState : PrepOutcome → MachineState
  | PrepOutcome.ret s => s
  | PrepOutcome.cont s => s

/-- Per-axis iteration of axisTick over n ISR ticks with a fixed
increment: the exact per-axis trace of the Bresenham arm of the ISR
within one segment. -/
def axisSteps (sec inc : Nat) (b d : Bool) : Nat → Nat → Int → Nat × Int
  | 0, c, pos => (c, pos)
  | n + 1, c, pos =>
    let t := axisTick sec inc b d c pos
    axisSteps sec inc b d n t.1 t.2.1

/-- Per-axis trace across a list of segments of one block: each segment
contributes n_step ticks whose increment is the pooled (pre-scaled) step
count shifted right by its amass_level, exactly as the segment loader
sets st.steps. -/
def segsAxisFold (sec stepsPre : Nat) (d : Bool) :
    List Stepper_Segment_t → Nat → Int → Nat × Int
  | [], c, pos => (c, pos)
  | seg :: rest, c, pos =>
    let t := axisSteps sec (stepsPre >>> seg.amass_level) seg.backlash_motion d
      seg.n_step c pos
    segsAxisFold sec stepsPre d rest t.1 t.2

/-- The producer-side index invariant of the segment ring: the next head
is in range and one past the head, modulo the ring size. -/
def RingInv (s : MachineState) : Prop :=
  s.segment_next_head < SEGMENT_BUFFER_SIZE
  ∧ s.segment_next_head = (s.segment_buffer_head + 1) % SEGMENT_BUFFER_SIZE

/-- Slot i lies in the occupied region of the ring, the interval from
tail (inclusive) to head (exclusive) in ring order. -/
def ringOccupied (s : MachineState) (i : Nat) : Prop :=
  (i + SEGMENT_BUFFER_SIZE - s.segment_buffer_tail % SEGMENT_BUFFER_SIZE)
      % SEGMENT_BUFFER_SIZE
    < (s.segment_buffer_head + SEGMENT_BUFFER_SIZE
        - s.segment_buffer_tail % SEGMENT_BUFFER_SIZE) % SEGMENT_BUFFER_SIZE

/-- Number of occupied slots of the ring. -/
def ringCount (s : MachineState) : Nat :=
  (s.segment_buffer_head + SEGMENT_BUFFER_SIZE
    - s.segment_buffer_tail % SEGMENT_BUFFER_SIZE) % SEGMENT_BUFFER_SIZE

/-! ## Concrete data for the closed statements -/

/-- An all-zero segment. -/
def zeroSegment : Stepper_Segment_t :=
  { n_step := 0, cycles_per_tick := 0, st_block_index := 0, amass_level := 0,
    spindle_pwm := 0, backlash_motion := false }

/-- An all-zero stepper block. -/
def zeroStBlock : Stepper_Block_t :=
  { steps_x := 0, steps_y := 0, steps_z := 0, step_event_count := 0,
    direction_bits := 0, is_pwm_rate_adjusted := false }

/-- A concrete baseline machine state for the closed statements. -/
def witnessState : MachineState :=
  { counter_x := 0, counter_y := 0, counter_z := 0,
    step_outbits := 0, dir_outbits := 0,
    steps_x := 0, steps_y := 0, steps_z := 0,
    step_count := 0, exec_block_index := 0,
    exec_block := none, exec_segment := none,
    segment_buffer := fun _ => zeroSegment,
    segment_buffer_tail := 0, segment_buffer_head := 0, segment_next_head := 1,
    st_block_buffer := fun _ => zeroStBlock,
    pl_block := none,
    prep := { st_block_index := 0, recalculate_flag := 0, dt_remainder := 0,
              steps_remaining := 0, step_per_mm := 0, req_mm_increment := 0,
              ramp_type := 0, mm_complete := 0, current_speed := 0,
              maximum_speed := 0, exit_speed := 0, accelerate_until := 0,
              decelerate_after := 0, inv_rate := 0, current_spindle_pwm := 0 },
    step_port_invert_mask := 0, dir_port_invert_mask := 0,
    settings := { step_invert_mask := 0, dir_invert_mask := 0,
                  stepper_idle_lock_time := 0, flags := 0 },
    sys_state := 0, sys_step_control := 0, homing_axis_lock := 0,
    sys_rt_exec_alarm := 0, sys_spindle_speed := 0,
    sys_position_x := 0, sys_position_y := 0, sys_position_z := 0,
    cycle_stop := false,
    tim_enabled := false, tim_arr := 0, tim_ccr1 := 0,
    spindle_pwm_out := 0, enable_pin_high := false }

/-- A concrete planner block for the closed statements. -/
def witnessBlock : Planner_Block_t :=
  { steps_x := 10, steps_y := 5, steps_z := 0, step_event_count := 10,
    direction_bits := 0, condition := 0, millimeters := 1, acceleration := 100,
    entry_speed_sqr := 0, programmed_rate := 60, spindle_speed := 0,
    backlash_motion := false }

/-- A planner environment with an empty planner queue. -/
def emptyEnv : PlannerEnv :=
  { system_motion_block := none, current_block := none,
    exec_block_exit_speed_sqr := 0, nominal_speed := fun _ => 0,
    sqrtq := fun _ => 0, compute_pwm := fun _ => 0 }

/-- A machine state about to finish a very fast segment: the prep data
says five steps remain over a vanishing time slice. -/
def fastSegState : MachineState :=
  { witnessState with prep := { witnessState.prep with
      step_per_mm := 250, steps_remaining := 5, dt_remainder := 0,
      mm_complete := 0 } }

/-- A carve result whose segment consumed the whole remaining distance
in 5/1440000000 minutes, forcing a one-cycle step period. -/
def fastCarve : CarveState :=
  { ramp_type := RAMP_DECEL, current_speed := 0, mm_remaining := 0,
    dt := 5 / 1440000000, dt_max := DT_SEGMENT, time_var := 0, brk := true }

/-- A machine state with one segment in the ring whose block index
differs from the one the ISR executed last. -/
def loadReadyState : MachineState :=
  { witnessState with
    segment_buffer_head := 1,
    segment_buffer := fun i =>
      if i = 0 then
        { n_step := 3, cycles_per_tick := 7, st_block_index := 2,
          amass_level := 1, spindle_pwm := 0, backlash_motion := false }
      else zeroSegment,
    st_block_buffer := fun i =>
      if i = 2 then
        { steps_x := 80, steps_y := 40, steps_z := 0, step_event_count := 80,
          direction_bits := 0, is_pwm_rate_adjusted := false }
      else zeroStBlock,
    exec_block_index := 0 }

/-- A concrete segment being executed, for the closed witnesses. -/
def tickSeg : Stepper_Segment_t :=
  { n_step := 2, cycles_per_tick := 500, st_block_index := 0, amass_level := 0,
    spindle_pwm := 0, backlash_motion := false }

/-- A concrete block being executed, for the closed witnesses. -/
def tickBlk : Stepper_Block_t :=
  { steps_x := 3, steps_y := 1, steps_z := 0, step_event_count := 4,
    direction_bits := 0, is_pwm_rate_adjusted := false }

/-- A machine state mid-segment, for the closed witnesses. -/
def tickState : MachineState :=
  { witnessState with
    exec_segment := some tickSeg, exec_block := some tickBlk,
    counter_x := 2, counter_y := 2, counter_z := 2,
    steps_x := 3, steps_y := 1, steps_z := 0, step_count := 2 }

/-- A concrete ring segment covering a whole small block, for the closed
block-execution witness. -/
def c1Seg : Stepper_Segment_t :=
  { n_step := 2, cycles_per_tick := 5000, st_block_index := 1, amass_level := 0,
    spindle_pwm := 0, backlash_motion := false }

/-- The pooled stepper block matching c1Seg: the planner counts
pre-scaled by MAX_AMASS_LEVEL. -/
def c1Blk : Stepper_Block_t :=
  { steps_x := 16, steps_y := 8, steps_z := 0, step_event_count := 16,
    direction_bits := 1, is_pwm_rate_adjusted := false }

/-- The planner block behind c1Blk: two X steps (negative direction) and
one Y step over two step events. -/
def c1Pb : Planner_Block_t :=
  { steps_x := 2, steps_y := 1, steps_z := 0, step_event_count := 2,
    direction_bits := 1, condition := 0, millimeters := 1, acceleration := 100,
    entry_speed_sqr := 0, programmed_rate := 60, spindle_speed := 0,
    backlash_motion := false }

/-- A machine state about to execute the block of c1Seg from an empty
exec state: one segment queued, previous block index differs. -/
def c1State : MachineState :=
  { witnessState with
    segment_buffer_head := 1,
    segment_buffer := fun i => if i = 0 then c1Seg else zeroSegment,
    st_block_buffer := fun i => if i = 1 then c1Blk else zeroStBlock,
    exec_block_index := 0 }

/-! ## Helper lemmas -/

/-- The preparer writes through updateSlot only at the ring head. -/
theorem updateSlot_get_head (s : MachineState)
    (f : Stepper_Segment_t → Stepper_Segment_t) :
    (updateSlot s f).segment_buffer s.segment_buffer_head
      = f (s.segment_buffer s.segment_buffer_head) := by
  simp [updateSlot]

/-- updateSlot leaves every slot other than the head unchanged. -/
theorem updateSlot_get_ne (s : MachineState)
    (f : Stepper_Segment_t → Stepper_Segment_t) (i : Nat)
    (h : i ≠ s.segment_buffer_head) :
    (updateSlot s f).segment_buffer i = s.segment_buffer i := by
  simp [updateSlot, h]

/-! ## Claim theorems -/

/-- C7: Stepper_UpdatePlannerBlockParams with a planner block in flight
sets the PREP_FLAG_RECALCULATE bit of prep.recalculate_flag, hands the
planner back the block with entry_speed_sqr equal to the square of
prep.current_speed, and clears pl_block; with no block in flight it
changes no state. -/
theorem c7_update_planner_block_params (s : MachineState) :
    (∀ blk, s.pl_block = some blk →
      (stepperUpdatePlannerBlockParams s).1.prep.recalculate_flag
          = s.prep.recalculate_flag ||| PREP_FLAG_RECALCULATE
      ∧ ((stepperUpdatePlannerBlockParams s).1.prep.recalculate_flag).testBit 0 = true
      ∧ (stepperUpdatePlannerBlockParams s).2
          = some { blk with
              entry_speed_sqr := s.prep.current_speed * s.prep.current_speed }
      ∧ (stepperUpdatePlannerBlockParams s).1.pl_block = none
      ∧ (stepperUpdatePlannerBlockParams s).1.counter_x = s.counter_x
      ∧ (stepperUpdatePlannerBlockParams s).1.segment_buffer_head
          = s.segment_buffer_head
      ∧ (stepperUpdatePlannerBlockParams s).1.segment_buffer_tail
          = s.segment_buffer_tail)
    ∧ (s.pl_block = none → stepperUpdatePlannerBlockParams s = (s, none)) := by
  constructor
  · intro blk h
    refine ⟨?_, ?_, ?_, ?_, ?_, ?_, ?_⟩ <;>
      simp [stepperUpdatePlannerBlockParams, h, PREP_FLAG_RECALCULATE,
        Nat.testBit_or]
  · intro h
    simp [stepperUpdatePlannerBlockParams, h]

/-- Closed witness for C7 at a concrete state with and without a block
in flight. -/
theorem c7_update_planner_block_params_witness :
    (stepperUpdatePlannerBlockParams
        { witnessState with pl_block := some witnessBlock }).1.pl_block = none
    ∧ stepperUpdatePlannerBlockParams witnessState = (witnessState, none) :=
  ⟨((c7_update_planner_block_params
      { witnessState with pl_block := some witnessBlock }).1 witnessBlock
        rfl).2.2.2.1,
   (c7_update_planner_block_params witnessState).2 rfl⟩

/-- C6 counterexample: with idle lock time 0xFF, a pending realtime
alarm and an idle (not homing) machine, Stepper_Disable(0) does disable
the drivers, while the claim (disabled iff lock time not 0xFF and not
homing) predicts they stay enabled. -/
theorem c6_disable_counterexample :
    ¬ ((stepperDisable
          { step_invert_mask := 0, dir_invert_mask := 0,
            stepper_idle_lock_time := 255, flags := 0 } 0 1 0).pin_state = true
        ↔ ((255 : Nat) ≠ 255 ∧ (0 : Nat) ≠ STATE_HOMING)) := by
  decide

/-- C6 (amended): for Stepper_Disable(0) the drivers end up disabled iff
the idle lock time is not 0xFF, or a realtime alarm is pending, or the
state is SLEEP, and in all cases only when the state is not HOMING; when
disabling, the call first dwells stepper_idle_lock_time ms; and the
enable pin is driven to the disable decision xor the invert-enable
setting. -/
theorem c6_disable_amended (st : Settings_t) (state alarm : Nat) :
    ((stepperDisable st state alarm 0).pin_state = true
      ↔ ((st.stepper_idle_lock_time ≠ 255 ∨ alarm ≠ 0 ∨ state = STATE_SLEEP)
          ∧ state ≠ STATE_HOMING))
    ∧ ((stepperDisable st state alarm 0).pin_state = true
        → (stepperDisable st state alarm 0).dwell_ms
            = some st.stepper_idle_lock_time)
    ∧ ((stepperDisable st state alarm 0).pin_state = false
        → (stepperDisable st state alarm 0).dwell_ms = none)
    ∧ (stepperDisable st state alarm 0).enable_pin_high
        = xor (stepperDisable st state alarm 0).pin_state
            (st.flags &&& BITFLAG_INVERT_ST_ENABLE != 0) := by
  unfold stepperDisable stepperDisablePinState
  refine ⟨?_, ?_, ?_, ?_⟩ <;> split <;> simp_all <;> tauto

/-- Closed witness for C6 (amended) at a concrete input: lock time 10,
idle state, no alarm. -/
theorem c6_disable_amended_witness :
    (stepperDisable
        { step_invert_mask := 0, dir_invert_mask := 0,
          stepper_idle_lock_time := 10, flags := 0 } 0 0 0).pin_state = true
    ∧ (stepperDisable
        { step_invert_mask := 0, dir_invert_mask := 0,
          stepper_idle_lock_time := 10, flags := 0 } 0 0 0).dwell_ms = some 10 :=
  ⟨(c6_disable_amended
      { step_invert_mask := 0, dir_invert_mask := 0,
        stepper_idle_lock_time := 10, flags := 0 } 0 0).1.mpr
      (by decide),
   (c6_disable_amended
      { step_invert_mask := 0, dir_invert_mask := 0,
        stepper_idle_lock_time := 10, flags := 0 } 0 0).2.1
      ((c6_disable_amended
          { step_invert_mask := 0, dir_invert_mask := 0,
            stepper_idle_lock_time := 10, flags := 0 } 0 0).1.mpr (by decide))⟩

/-- C5: the AMASS level is the highest of {0,1,2,3} whose cutoff period
the cycle count reaches (bins at F/8000, F/4000, F/2000); the cycle
count is shifted right and the 16-bit step count left by the level; and
the stored cycles_per_tick times 2^level reproduces the pre-AMASS
dominant-axis period up to the shift truncation, or the clamp held the
16-bit maximum. -/
theorem c5_amass_selection (cycles n_step : Nat) (hn : n_step < U16) :
    ((amassAdjust cycles n_step).1 = 0 ↔ cycles < F_TIMER_STEPPER / 8000)
    ∧ ((amassAdjust cycles n_step).1 = 1 ↔
        (F_TIMER_STEPPER / 8000 ≤ cycles ∧ cycles < F_TIMER_STEPPER / 4000))
    ∧ ((amassAdjust cycles n_step).1 = 2 ↔
        (F_TIMER_STEPPER / 4000 ≤ cycles ∧ cycles < F_TIMER_STEPPER / 2000))
    ∧ ((amassAdjust cycles n_step).1 = 3 ↔ F_TIMER_STEPPER / 2000 ≤ cycles)
    ∧ (amassAdjust cycles n_step).2.1 = cycles >>> (amassAdjust cycles n_step).1
    ∧ (amassAdjust cycles n_step).2.2
        = (n_step <<< (amassAdjust cycles n_step).1) % U16
    ∧ clampCyclesPerTick (amassAdjust cycles n_step).2.1
          * 2 ^ (amassAdjust cycles n_step).1 ≤ cycles
    ∧ (cycles < clampCyclesPerTick (amassAdjust cycles n_step).2.1
            * 2 ^ (amassAdjust cycles n_step).1
            + 2 ^ (amassAdjust cycles n_step).1
        ∨ clampCyclesPerTick (amassAdjust cycles n_step).2.1 = U16 - 1) := by
  have hn' : n_step % U16 = n_step := Nat.mod_eq_of_lt hn
  have f1 : F_TIMER_STEPPER / 8000 = 3000 := by norm_num [F_TIMER_STEPPER]
  have f2 : F_TIMER_STEPPER / 4000 = 6000 := by norm_num [F_TIMER_STEPPER]
  have f3 : F_TIMER_STEPPER / 2000 = 12000 := by norm_num [F_TIMER_STEPPER]
  have e1 : AMASS_LEVEL1 = 3000 := f1
  have e2 : AMASS_LEVEL2 = 6000 := f2
  have e3 : AMASS_LEVEL3 = 12000 := f3
  have hu : U16 = 65536 := rfl
  rw [f1, f2, f3]
  rcases Nat.lt_or_ge cycles 3000 with h1 | h1
  · have ha : amassAdjust cycles n_step = (0, cycles, n_step) := by
      simp [amassAdjust, e1, h1]
    rw [ha]
    dsimp only
    have hcl : clampCyclesPerTick cycles = cycles := by
      unfold clampCyclesPerTick U16
      split <;> omega
    refine ⟨by simp [h1], by omega, by omega, by omega, by simp,
      by simp [hn'], ?_, ?_⟩
    · rw [hcl]; simpa using Nat.le_refl cycles
    · left; rw [hcl]; simp
  · rcases Nat.lt_or_ge cycles 6000 with h2 | h2
    · have ha : amassAdjust cycles n_step =
          (1, cycles >>> 1, (n_step <<< 1) % U16) := by
        simp [amassAdjust, e1, e2, h2, Nat.not_lt.mpr h1]
      rw [ha]
      dsimp only
      have hs : cycles >>> 1 = cycles / 2 := Nat.shiftRight_eq_div_pow cycles 1
      refine ⟨by omega, by simp [h1, h2], by omega, by omega, rfl, rfl, ?_, ?_⟩
      · rw [hs]; unfold clampCyclesPerTick U16; split <;> (norm_num; omega)
      · rw [hs]; unfold clampCyclesPerTick U16
        split
        · left; norm_num; omega
        · right; rfl
    · rcases Nat.lt_or_ge cycles 12000 with h3 | h3
      · have ha : amassAdjust cycles n_step =
            (2, cycles >>> 2, (n_step <<< 2) % U16) := by
          simp [amassAdjust, e1, e2, e3, h3, Nat.not_lt.mpr h1, Nat.not_lt.mpr h2]
        rw [ha]
        dsimp only
        have hs : cycles >>> 2 = cycles / 4 := Nat.shiftRight_eq_div_pow cycles 2
        refine ⟨by omega, by omega, by simp [h2, h3], by omega, rfl, rfl, ?_, ?_⟩
        · rw [hs]; unfold clampCyclesPerTick U16; split <;> (norm_num; omega)
        · rw [hs]; unfold clampCyclesPerTick U16
          split
          · left; norm_num; omega
          · right; rfl
      · have ha : amassAdjust cycles n_step =
            (3, cycles >>> 3, (n_step <<< 3) % U16) := by
          simp [amassAdjust, e1, e2, e3, Nat.not_lt.mpr h1, Nat.not_lt.mpr h2,
            Nat.not_lt.mpr h3]
        rw [ha]
        dsimp only
        have hs : cycles >>> 3 = cycles / 8 := Nat.shiftRight_eq_div_pow cycles 3
        refine ⟨by omega, by omega, by omega, by simp [h3], rfl, rfl, ?_, ?_⟩
        · rw [hs]; unfold clampCyclesPerTick U16; split <;> (norm_num; omega)
        · rw [hs]; unfold clampCyclesPerTick U16
          split
          · left; norm_num; omega
          · right; rfl

/-- Closed witness for C5 at cycles 5000 (level 1 bin) and a 16-bit step
count. -/
theorem c5_amass_selection_witness :
    (amassAdjust 5000 7).1 = 1 ∧ (amassAdjust 5000 7).2.1 = 5000 >>> 1 :=
  ⟨((c5_amass_selection 5000 7 (by decide)).2.1).mpr (by decide),
   (c5_amass_selection 5000 7 (by decide)).2.2.2.2.1⟩

/-- C4 counterexample: a segment committed by the preparer for a
one-cycle step period is published in the ring with cycles_per_tick = 1,
below STEP_TIMER_MIN = 400: the preparer applies no STEP_TIMER_MIN
floor, so the claimed invariant fails for segments sitting in the ring
before the ISR loads them. -/
theorem c4_counterexample :
    (prepOutState (prepFinish witnessBlock fastCarve fastSegState)).segment_buffer 0
        = { n_step := 5, cycles_per_tick := 1, st_block_index := 0,
            amass_level := 0, spindle_pwm := 0, backlash_motion := false }
    ∧ (prepOutState (prepFinish witnessBlock fastCarve fastSegState)).segment_buffer_head
        = 1
    ∧ ((prepOutState (prepFinish witnessBlock fastCarve fastSegState)).segment_buffer 0).cycles_per_tick
        < STEP_TIMER_MIN := by
  have hn0 : computeNStep0 fastSegState.prep.steps_remaining
      fastSegState.prep.step_per_mm fastCarve.mm_remaining = 5 := by
    norm_num [computeNStep0, fastSegState, fastCarve, witnessState, U16]
    decide
  have hcy : prepCycles fastSegState fastCarve = 1 := by
    norm_num [prepCycles, fastSegState, fastCarve, witnessState, U32,
      TICKS_PER_MICROSECOND, F_TIMER_STEPPER, DT_SEGMENT]
  refine ⟨?_, ?_, ?_⟩ <;>
  · simp only [prepFinish, hn0, hcy]
    norm_num [amassAdjust, AMASS_LEVEL1, AMASS_LEVEL2, AMASS_LEVEL3,
      F_TIMER_STEPPER, clampCyclesPerTick, U16, updateSlot, commitSegment,
      prepOutState, fastSegState, fastCarve, witnessState, zeroSegment,
      STEP_CONTROL_EXECUTE_HOLD, STEP_CONTROL_EXECUTE_SYS_MOTION,
      STEP_CONTROL_END_MOTION, STEP_TIMER_MIN, SEGMENT_BUFFER_SIZE]

/-- C4 (amended): the STEP_TIMER_MIN floor is enforced at segment load
by the ISR, not at commit by the preparer: whatever cycles_per_tick the
ring slot carries, the loader clamps the slot in place and programs the
timer with max(cycles_per_tick, STEP_TIMER_MIN), so the executing
segment always satisfies the floor. -/
theorem c4_amended_isr_clamp (s s1 : MachineState)
    (h : loadSegment s = some s1) :
    STEP_TIMER_MIN ≤ s1.tim_arr
    ∧ s1.tim_arr
        = max (s.segment_buffer s.segment_buffer_tail).cycles_per_tick STEP_TIMER_MIN
    ∧ s1.exec_segment = some (clampSegment (s.segment_buffer s.segment_buffer_tail))
    ∧ (∀ seg, STEP_TIMER_MIN ≤ (clampSegment seg).cycles_per_tick)
    ∧ s1.segment_buffer s.segment_buffer_tail
        = clampSegment (s.segment_buffer s.segment_buffer_tail) := by
  have hc : ∀ seg, STEP_TIMER_MIN ≤ (clampSegment seg).cycles_per_tick := by
    intro seg
    unfold clampSegment
    dsimp only
    split <;> omega
  have hm : ∀ seg : Stepper_Segment_t,
      (clampSegment seg).cycles_per_tick = max seg.cycles_per_tick STEP_TIMER_MIN := by
    intro seg
    unfold clampSegment
    dsimp only
    split <;> omega
  simp only [loadSegment] at h
  split at h
  · exact absurd h (by simp)
  · injection h with h
    have htim : s1.tim_arr
        = (clampSegment (s.segment_buffer s.segment_buffer_tail)).cycles_per_tick := by
      rw [← h]
      split <;> rfl
    have hseg : s1.exec_segment
        = some (clampSegment (s.segment_buffer s.segment_buffer_tail)) := by
      rw [← h]
      split <;> rfl
    have hbuf : s1.segment_buffer s.segment_buffer_tail
        = clampSegment (s.segment_buffer s.segment_buffer_tail) := by
      rw [← h]
      split <;> simp
    refine ⟨?_, ?_, hseg, hc, hbuf⟩
    · rw [htim]
      exact hc _
    · rw [htim]
      exact hm _

/-- Closed witness for C4 (amended): the loader applied to a concrete
state with a too-fast segment in the ring yields a timer period at the
floor. -/
theorem c4_amended_isr_clamp_witness :
    STEP_TIMER_MIN ≤ ((loadSegment loadReadyState).getD loadReadyState).tim_arr :=
  (c4_amended_isr_clamp loadReadyState
    ((loadSegment loadReadyState).getD loadReadyState) rfl).1

/-- C9: Stepper_Reset leaves exec_block null with an empty ring, and an
ISR tick taken in that state reaches the empty-ring branch and reads
is_pwm_rate_adjusted through the null exec_block: the modelled ISR is
undefined (none) there, so the claimed safety property fails in the
reachable state immediately after reset, before any segment was ever
loaded. -/
theorem c9_isr_reads_null_exec_block_after_reset :
    (stepperReset witnessState).exec_block = none
    ∧ (stepperReset witnessState).exec_segment = none
    ∧ (stepperReset witnessState).segment_buffer_head
        = (stepperReset witnessState).segment_buffer_tail
    ∧ stepperMainISR (stepperReset witnessState) = none := by
  exact ⟨rfl, rfl, rfl, rfl⟩

/-- C8: Stepper_PrepareBuffer returns immediately with the machine state
(ring indices and ring contents included) unchanged when the END_MOTION
bit is set on entry; and when a planner block must be acquired but the
planner offers none, it returns with the state unchanged and no segment
enqueued. -/
theorem c8_prepare_buffer_early_returns (env : PlannerEnv) (lf cf : Nat)
    (s : MachineState) :
    (s.sys_step_control &&& STEP_CONTROL_END_MOTION ≠ 0 →
      stepperPrepareBuffer env lf cf s = s)
    ∧ (s.pl_block = none → env.system_motion_block = none →
        env.current_block = none →
        stepperPrepareBuffer env lf cf s = s) := by
  constructor
  · intro h
    unfold stepperPrepareBuffer
    simp [h]
  · intro h1 h2 h3
    unfold stepperPrepareBuffer
    split
    · rfl
    · cases lf with
      | zero => rfl
      | succ n =>
        show prepLoop env cf (n + 1) s = s
        unfold prepLoop
        split
        · have hp : prepOne env cf s = PrepOutcome.ret s := by
            unfold prepOne loadNewBlock
            simp [h1, h2, h3]
          rw [hp]
        · rfl

/-- Closed witness for C8 at a concrete state and an empty planner. -/
theorem c8_prepare_buffer_early_returns_witness :
    stepperPrepareBuffer emptyEnv 3 3
        { witnessState with sys_step_control := 1 }
      = { witnessState with sys_step_control := 1 }
    ∧ stepperPrepareBuffer emptyEnv 3 3 witnessState = witnessState :=
  ⟨(c8_prepare_buffer_early_returns emptyEnv 3 3
      { witnessState with sys_step_control := 1 }).1 (by decide),
   (c8_prepare_buffer_early_returns emptyEnv 3 3 witnessState).2 rfl rfl rfl⟩

/-- Field projections of bresPhase in terms of the per-axis tick. -/
theorem bresPhase_proj (s : MachineState) (seg : Stepper_Segment_t)
    (blk : Stepper_Block_t) :
    (bresPhase s seg blk).counter_x
      = (axisTick blk.step_event_count s.steps_x seg.backlash_motion
          (blk.direction_bits.testBit X_DIRECTION_BIT) s.counter_x
          s.sys_position_x).1
    ∧ (bresPhase s seg blk).sys_position_x
      = (axisTick blk.step_event_count s.steps_x seg.backlash_motion
          (blk.direction_bits.testBit X_DIRECTION_BIT) s.counter_x
          s.sys_position_x).2.1
    ∧ (bresPhase s seg blk).counter_y
      = (axisTick blk.step_event_count s.steps_y seg.backlash_motion
          (blk.direction_bits.testBit Y_DIRECTION_BIT) s.counter_y
          s.sys_position_y).1
    ∧ (bresPhase s seg blk).sys_position_y
      = (axisTick blk.step_event_count s.steps_y seg.backlash_motion
          (blk.direction_bits.testBit Y_DIRECTION_BIT) s.counter_y
          s.sys_position_y).2.1
    ∧ (bresPhase s seg blk).counter_z
      = (axisTick blk.step_event_count s.steps_z seg.backlash_motion
          (blk.direction_bits.testBit Z_DIRECTION_BIT) s.counter_z
          s.sys_position_z).1
    ∧ (bresPhase s seg blk).sys_position_z
      = (axisTick blk.step_event_count s.steps_z seg.backlash_motion
          (blk.direction_bits.testBit Z_DIRECTION_BIT) s.counter_z
          s.sys_position_z).2.1
    ∧ (bresPhase s seg blk).step_outbits
      = (if s.sys_state = STATE_HOMING then
          ((if (axisTick blk.step_event_count s.steps_x seg.backlash_motion
                (blk.direction_bits.testBit X_DIRECTION_BIT) s.counter_x
                s.sys_position_x).2.2 then 1 <<< X_STEP_BIT else 0)
            ||| (if (axisTick blk.step_event_count s.steps_y seg.backlash_motion
                (blk.direction_bits.testBit Y_DIRECTION_BIT) s.counter_y
                s.sys_position_y).2.2 then 1 <<< Y_STEP_BIT else 0)
            ||| (if (axisTick blk.step_event_count s.steps_z seg.backlash_motion
                (blk.direction_bits.testBit Z_DIRECTION_BIT) s.counter_z
                s.sys_position_z).2.2 then 1 <<< Z_STEP_BIT else 0))
            &&& s.homing_axis_lock
         else
          ((if (axisTick blk.step_event_count s.steps_x seg.backlash_motion
                (blk.direction_bits.testBit X_DIRECTION_BIT) s.counter_x
                s.sys_position_x).2.2 then 1 <<< X_STEP_BIT else 0)
            ||| (if (axisTick blk.step_event_count s.steps_y seg.backlash_motion
                (blk.direction_bits.testBit Y_DIRECTION_BIT) s.counter_y
                s.sys_position_y).2.2 then 1 <<< Y_STEP_BIT else 0)
            ||| (if (axisTick blk.step_event_count s.steps_z seg.backlash_motion
                (blk.direction_bits.testBit Z_DIRECTION_BIT) s.counter_z
                s.sys_position_z).2.2 then 1 <<< Z_STEP_BIT else 0))) := by
  refine ⟨?_, ?_, ?_, ?_, ?_, ?_, ?_⟩ <;>
    (simp only [bresPhase]; split <;> (try split) <;> rfl)

/-- C2: on a tick with a loaded segment the ISR adds the AMASS-shifted
axis increment to each 32-bit Bresenham counter, emits the axis step bit
iff the counter strictly exceeds the block step_event_count, in which
case it subtracts step_event_count and steps sys_position by one in the
direction-bit sense unless the segment is a backlash move; and a
segment load whose st_block_index differs from the previous block
resets all three counters to step_event_count >> 1 and installs the
increments as the pooled step counts shifted right by the segment
amass_level. -/
theorem c2_bresenham_tick :
    (∀ s seg blk, s.exec_segment = some seg → s.exec_block = some blk →
      s.sys_state ≠ STATE_HOMING →
      stepperMainISR s = some (bresPhase s seg blk)
      ∧ (bresPhase s seg blk).counter_x
          = (if blk.step_event_count < (s.counter_x + s.steps_x) % U32
             then (s.counter_x + s.steps_x) % U32 - blk.step_event_count
             else (s.counter_x + s.steps_x) % U32)
      ∧ ((bresPhase s seg blk).step_outbits.testBit X_STEP_BIT
          = decide (blk.step_event_count < (s.counter_x + s.steps_x) % U32))
      ∧ (bresPhase s seg blk).sys_position_x
          = (if blk.step_event_count < (s.counter_x + s.steps_x) % U32 then
               (if seg.backlash_motion then s.sys_position_x
                else if blk.direction_bits.testBit X_DIRECTION_BIT
                  then s.sys_position_x - 1 else s.sys_position_x + 1)
             else s.sys_position_x)
      ∧ (bresPhase s seg blk).counter_y
          = (if blk.step_event_count < (s.counter_y + s.steps_y) % U32
             then (s.counter_y + s.steps_y) % U32 - blk.step_event_count
             else (s.counter_y + s.steps_y) % U32)
      ∧ ((bresPhase s seg blk).step_outbits.testBit Y_STEP_BIT
          = decide (blk.step_event_count < (s.counter_y + s.steps_y) % U32))
      ∧ (bresPhase s seg blk).sys_position_y
          = (if blk.step_event_count < (s.counter_y + s.steps_y) % U32 then
               (if seg.backlash_motion then s.sys_position_y
                else if blk.direction_bits.testBit Y_DIRECTION_BIT
                  then s.sys_position_y - 1 else s.sys_position_y + 1)
             else s.sys_position_y)
      ∧ (bresPhase s seg blk).counter_z
          = (if blk.step_event_count < (s.counter_z + s.steps_z) % U32
             then (s.counter_z + s.steps_z) % U32 - blk.step_event_count
             else (s.counter_z + s.steps_z) % U32)
      ∧ ((bresPhase s seg blk).step_outbits.testBit Z_STEP_BIT
          = decide (blk.step_event_count < (s.counter_z + s.steps_z) % U32))
      ∧ (bresPhase s seg blk).sys_position_z
          = (if blk.step_event_count < (s.counter_z + s.steps_z) % U32 then
               (if seg.backlash_motion then s.sys_position_z
                else if blk.direction_bits.testBit Z_DIRECTION_BIT
                  then s.sys_position_z - 1 else s.sys_position_z + 1)
             else s.sys_position_z))
    ∧ (∀ s s1,
        s.exec_block_index
          ≠ (s.segment_buffer s.segment_buffer_tail).st_block_index →
        loadSegment s = some s1 →
        s1.counter_x
          = (s.st_block_buffer
              (s.segment_buffer s.segment_buffer_tail).st_block_index).step_event_count >>> 1
        ∧ s1.counter_y
          = (s.st_block_buffer
              (s.segment_buffer s.segment_buffer_tail).st_block_index).step_event_count >>> 1
        ∧ s1.counter_z
          = (s.st_block_buffer
              (s.segment_buffer s.segment_buffer_tail).st_block_index).step_event_count >>> 1
        ∧ s1.steps_x
          = (s.st_block_buffer
              (s.segment_buffer s.segment_buffer_tail).st_block_index).steps_x
              >>> (s.segment_buffer s.segment_buffer_tail).amass_level
        ∧ s1.steps_y
          = (s.st_block_buffer
              (s.segment_buffer s.segment_buffer_tail).st_block_index).steps_y
              >>> (s.segment_buffer s.segment_buffer_tail).amass_level
        ∧ s1.steps_z
          = (s.st_block_buffer
              (s.segment_buffer s.segment_buffer_tail).st_block_index).steps_z
              >>> (s.segment_buffer s.segment_buffer_tail).amass_level) := by
  constructor
  · intro s seg blk hseg hblk hhom
    have hm : stepperMainISR s = some (bresPhase s seg blk) := by
      unfold stepperMainISR
      rw [hseg, hblk]
    obtain ⟨p1, p2, p3, p4, p5, p6, p7⟩ := bresPhase_proj s seg blk
    refine ⟨hm, ?_, ?_, ?_, ?_, ?_, ?_, ?_, ?_, ?_⟩
    · rw [p1]
      by_cases hx : blk.step_event_count < (s.counter_x + s.steps_x) % U32 <;>
        simp [axisTick, hx]
    · rw [p7, if_neg hhom]
      by_cases hx : blk.step_event_count < (s.counter_x + s.steps_x) % U32 <;>
      by_cases hy : blk.step_event_count < (s.counter_y + s.steps_y) % U32 <;>
      by_cases hz : blk.step_event_count < (s.counter_z + s.steps_z) % U32 <;>
        simp +decide [axisTick, hx, hy, hz, X_STEP_BIT, Y_STEP_BIT, Z_STEP_BIT,
          Nat.testBit_or]
    · rw [p2]
      by_cases hx : blk.step_event_count < (s.counter_x + s.steps_x) % U32 <;>
        simp [axisTick, hx]
    · rw [p3]
      by_cases hy : blk.step_event_count < (s.counter_y + s.steps_y) % U32 <;>
        simp [axisTick, hy]
    · rw [p7, if_neg hhom]
      by_cases hx : blk.step_event_count < (s.counter_x + s.steps_x) % U32 <;>
      by_cases hy : blk.step_event_count < (s.counter_y + s.steps_y) % U32 <;>
      by_cases hz : blk.step_event_count < (s.counter_z + s.steps_z) % U32 <;>
        simp +decide [axisTick, hx, hy, hz, X_STEP_BIT, Y_STEP_BIT, Z_STEP_BIT,
          Nat.testBit_or]
    · rw [p4]
      by_cases hy : blk.step_event_count < (s.counter_y + s.steps_y) % U32 <;>
        simp [axisTick, hy]
    · rw [p5]
      by_cases hz : blk.step_event_count < (s.counter_z + s.steps_z) % U32 <;>
        simp [axisTick, hz]
    · rw [p7, if_neg hhom]
      by_cases hx : blk.step_event_count < (s.counter_x + s.steps_x) % U32 <;>
      by_cases hy : blk.step_event_count < (s.counter_y + s.steps_y) % U32 <;>
      by_cases hz : blk.step_event_count < (s.counter_z + s.steps_z) % U32 <;>
        simp +decide [axisTick, hx, hy, hz, X_STEP_BIT, Y_STEP_BIT, Z_STEP_BIT,
          Nat.testBit_or]
    · rw [p6]
      by_cases hz : blk.step_event_count < (s.counter_z + s.steps_z) % U32 <;>
        simp [axisTick, hz]
  · intro s s1 hidx h
    simp only [loadSegment] at h
    split at h
    · exact absurd h (by simp)
    · rename_i blk heq
      split at heq
      · rename_i hcond
        injection heq with heq
        injection h with h
        subst heq
        rw [← h]
        simp only [clampSegment] at hcond
        simp at hcond
        simp [hcond, clampSegment]
      · rename_i hcond
        exfalso
        simp [clampSegment] at hcond
        exact hidx hcond

/-- Closed witness for C2: a mid-segment tick with a hot Bresenham
counter, and a segment load that starts a new block. -/
theorem c2_bresenham_tick_witness :
    (bresPhase tickState tickSeg tickBlk).counter_x
      = (if tickBlk.step_event_count < (tickState.counter_x + tickState.steps_x) % U32
         then (tickState.counter_x + tickState.steps_x) % U32
            - tickBlk.step_event_count
         else (tickState.counter_x + tickState.steps_x) % U32)
    ∧ ((loadSegment loadReadyState).getD loadReadyState).counter_x
      = (loadReadyState.st_block_buffer
          (loadReadyState.segment_buffer
            loadReadyState.segment_buffer_tail).st_block_index).step_event_count >>> 1 :=
  ⟨((c2_bresenham_tick).1 tickState tickSeg tickBlk rfl rfl (by decide)).2.1,
   ((c2_bresenham_tick).2 loadReadyState
      ((loadSegment loadReadyState).getD loadReadyState) (by decide) rfl).1⟩

/-! ## Ring index preservation lemmas (for C10) -/

/-- RingInv transfers along equal producer indices. -/
theorem ringInv_of_eq {s t : MachineState}
    (h1 : t.segment_buffer_head = s.segment_buffer_head)
    (h2 : t.segment_next_head = s.segment_next_head)
    (h : RingInv s) : RingInv t := by
  unfold RingInv at *
  rw [h1, h2]
  exact h

/-- updateSlot does not move the ring head. -/
theorem updateSlot_idx_head (s : MachineState)
    (f : Stepper_Segment_t → Stepper_Segment_t) :
    (updateSlot s f).segment_buffer_head = s.segment_buffer_head := rfl

/-- updateSlot does not move the ring next head. -/
theorem updateSlot_idx_next (s : MachineState)
    (f : Stepper_Segment_t → Stepper_Segment_t) :
    (updateSlot s f).segment_next_head = s.segment_next_head := rfl

/-- prepPwm does not move the ring head. -/
theorem prepPwm_idx_head (env : PlannerEnv) (blk : Planner_Block_t)
    (s : MachineState) :
    (prepPwm env blk s).segment_buffer_head = s.segment_buffer_head := by
  simp only [prepPwm]
  split <;> (try split) <;> rfl

/-- prepPwm does not move the ring next head. -/
theorem prepPwm_idx_next (env : PlannerEnv) (blk : Planner_Block_t)
    (s : MachineState) :
    (prepPwm env blk s).segment_next_head = s.segment_next_head := by
  simp only [prepPwm]
  split <;> (try split) <;> rfl

/-- loadNewBlock touches neither the ring indices nor the ring
contents. -/
theorem loadNewBlock_ring (env : PlannerEnv) (s s1 : MachineState)
    (h : loadNewBlock env s = some s1) :
    s1.segment_buffer_head = s.segment_buffer_head
    ∧ s1.segment_next_head = s.segment_next_head
    ∧ s1.segment_buffer_tail = s.segment_buffer_tail
    ∧ s1.segment_buffer = s.segment_buffer := by
  simp only [loadNewBlock] at h
  split at h
  · exact absurd h (by simp)
  · split at h <;> (injection h with h; rw [← h]; exact ⟨rfl, rfl, rfl, rfl⟩)

/-- bresPhase leaves the producer indices and the ring contents
unchanged (it may advance only the consumer tail). -/
theorem bresPhase_ring (s : MachineState) (seg : Stepper_Segment_t)
    (blk : Stepper_Block_t) :
    (bresPhase s seg blk).segment_buffer_head = s.segment_buffer_head
    ∧ (bresPhase s seg blk).segment_next_head = s.segment_next_head
    ∧ (bresPhase s seg blk).segment_buffer = s.segment_buffer := by
  simp only [bresPhase]
  split <;> (try split) <;> exact ⟨rfl, rfl, rfl⟩

/-- The ISR segment loader leaves the producer indices unchanged. -/
theorem loadSegment_ring (s s1 : MachineState) (h : loadSegment s = some s1) :
    s1.segment_buffer_head = s.segment_buffer_head
    ∧ s1.segment_next_head = s.segment_next_head
    ∧ s1.segment_buffer_tail = s.segment_buffer_tail := by
  simp only [loadSegment] at h
  split at h
  · exact absurd h (by simp)
  · injection h with h
    rw [← h]
    split <;> exact ⟨rfl, rfl, rfl⟩

/-- An ISR tick leaves the producer indices unchanged. -/
theorem stepperMainISR_ring (s s1 : MachineState)
    (h : stepperMainISR s = some s1) :
    s1.segment_buffer_head = s.segment_buffer_head
    ∧ s1.segment_next_head = s.segment_next_head := by
  unfold stepperMainISR at h
  split at h
  · split at h
    · split at h
      · exact absurd h (by simp)
      · rename_i s2 hload
        split at h <;> try exact Option.noConfusion h
        injection h with h
        rw [← h]
        obtain ⟨l1, l2, _⟩ := loadSegment_ring s s2 hload
        exact ⟨((bresPhase_ring s2 _ _).1).trans l1,
          ((bresPhase_ring s2 _ _).2.1).trans l2⟩
    · simp only [isrIdle] at h
      split at h
      · exact absurd h (by simp)
      · injection h with h
        rw [← h]
        exact ⟨rfl, rfl⟩
  · rename_i seg hseg
    split at h
    · exact absurd h (by simp)
    · rename_i blk hblk
      injection h with h
      rw [← h]
      obtain ⟨b1, b2, _⟩ := bresPhase_ring s seg blk
      exact ⟨b1, b2⟩

/-- prepFinish preserves the producer index invariant. -/
theorem prepFinish_ringinv (blk : Planner_Block_t) (cs : CarveState)
    (s5 : MachineState) (h : RingInv s5) :
    RingInv (prepOutState (prepFinish blk cs s5)) := by
  obtain ⟨h1, h2⟩ := h
  simp only [prepFinish]
  split
  · exact ⟨h1, h2⟩
  · split
    · split
      · refine ⟨?_, ?_⟩ <;>
          (simp only [prepOutState, commitSegment, updateSlot,
             SEGMENT_BUFFER_SIZE] at *
           split <;> omega)
      · split
        · refine ⟨?_, ?_⟩ <;>
            (simp only [prepOutState, commitSegment, updateSlot,
               SEGMENT_BUFFER_SIZE] at *
             split <;> omega)
        · refine ⟨?_, ?_⟩ <;>
            (simp only [prepOutState, commitSegment, updateSlot,
               SEGMENT_BUFFER_SIZE] at *
             split <;> omega)
    · refine ⟨?_, ?_⟩ <;>
        (simp only [prepOutState, commitSegment, updateSlot,
           SEGMENT_BUFFER_SIZE] at *
         split <;> omega)

/-- One pass of the preparer loop body preserves the producer index
invariant. -/
theorem prepOne_ringinv (env : PlannerEnv) (cf : Nat) (s : MachineState)
    (hinv : RingInv s) : RingInv (prepOutState (prepOne env cf s)) := by
  simp only [prepOne]
  cases hpl : s.pl_block with
  | none =>
    dsimp only
    cases hln : loadNewBlock env s with
    | none =>
      dsimp only
      exact hinv
    | some s1 =>
      dsimp only
      obtain ⟨e1, e2, _, _⟩ := loadNewBlock_ring env s s1 hln
      have hinv1 : RingInv s1 := ringInv_of_eq e1 e2 hinv
      cases hpb : s1.pl_block with
      | none =>
        dsimp only
        exact hinv1
      | some blk =>
        dsimp only
        apply prepFinish_ringinv
        refine ringInv_of_eq ?_ ?_ hinv1
        · simp only [updateSlot_idx_head, prepPwm_idx_head, prepSegInit]
        · simp only [updateSlot_idx_next, prepPwm_idx_next, prepSegInit]
  | some blk0 =>
    dsimp only
    rw [hpl]
    dsimp only
    apply prepFinish_ringinv
    refine ringInv_of_eq ?_ ?_ hinv
    · simp only [updateSlot_idx_head, prepPwm_idx_head, prepSegInit]
    · simp only [updateSlot_idx_next, prepPwm_idx_next, prepSegInit]

/-- The preparer while loop preserves the producer index invariant. -/
theorem prepLoop_ringinv (env : PlannerEnv) (cf : Nat) :
    ∀ n s, RingInv s → RingInv (prepLoop env cf n s)
  | 0, s, h => h
  | n + 1, s, h => by
    unfold prepLoop
    split
    · cases hp : prepOne env cf s with
      | ret s1 =>
        have hh := prepOne_ringinv env cf s h
        rw [hp] at hh
        exact hh
      | cont s1 =>
        have hh := prepOne_ringinv env cf s h
        rw [hp] at hh
        exact prepLoop_ringinv env cf n s1 hh
    · exact h

/-- C10: the relation segment_next_head = (head + 1) mod
SEGMENT_BUFFER_SIZE is established by Stepper_Reset and preserved by
every Stepper_PrepareBuffer call and every ISR tick; with the loop
guard it bounds the ring to SEGMENT_BUFFER_SIZE - 1 segments, the slot
the preparer writes (the head slot) is never inside the occupied
region, and slot writes touch only the head slot. -/
theorem c10_ring_invariant :
    (∀ s, RingInv (stepperReset s))
    ∧ (∀ env lf cf s, RingInv s → RingInv (stepperPrepareBuffer env lf cf s))
    ∧ (∀ s s1, stepperMainISR s = some s1 → RingInv s → RingInv s1)
    ∧ (∀ s, ringCount s ≤ SEGMENT_BUFFER_SIZE - 1)
    ∧ (∀ s, ¬ ringOccupied s s.segment_buffer_head)
    ∧ (∀ s f i, i ≠ s.segment_buffer_head →
        (updateSlot s f).segment_buffer i = s.segment_buffer i) := by
  refine ⟨?_, ?_, ?_, ?_, ?_, ?_⟩
  · intro s
    refine ⟨?_, ?_⟩ <;> norm_num [stepperReset, SEGMENT_BUFFER_SIZE]
  · intro env lf cf s h
    unfold stepperPrepareBuffer
    split
    · exact h
    · exact prepLoop_ringinv env cf lf s h
  · intro s s1 h hinv
    obtain ⟨e1, e2⟩ := stepperMainISR_ring s s1 h
    exact ringInv_of_eq e1 e2 hinv
  · intro s
    unfold ringCount SEGMENT_BUFFER_SIZE
    omega
  · intro s
    unfold ringOccupied
    omega
  · intro s f i h
    exact updateSlot_get_ne s f i h

/-- Closed witness for C10: the invariant holds after a preparer call on
a concrete state, and for an ISR tick on a concrete loaded state. -/
theorem c10_ring_invariant_witness :
    RingInv (stepperPrepareBuffer emptyEnv 2 2 witnessState)
    ∧ RingInv (stepperReset witnessState) := by
  have h0 : RingInv witnessState := by
    refine ⟨?_, ?_⟩ <;> decide
  exact ⟨(c10_ring_invariant).2.1 emptyEnv 2 2 witnessState h0,
    (c10_ring_invariant).1 witnessState⟩

/-- Running n axis ticks with a fixed increment bounded by the event
count keeps the counter within the event count, conserves the total
(counter plus emitted multiples of the event count equals the total
increment added), and moves the position by exactly the emit count in
the direction-bit sense, or not at all for a backlash segment. -/
theorem axisSteps_spec (sec inc : Nat) (b d : Bool)
    (hinc : inc ≤ sec) (hsec : 2 * sec < U32) :
    ∀ n c pos, c ≤ sec →
      ∃ k : Nat,
        (axisSteps sec inc b d n c pos).1 + k * sec = c + n * inc
        ∧ (axisSteps sec inc b d n c pos).1 ≤ sec
        ∧ (axisSteps sec inc b d n c pos).2
            = (if b then pos else if d then pos - k else pos + k) := by
  intro n
  induction n with
  | zero =>
    intro c pos hc
    refine ⟨0, by simp [axisSteps], by simpa [axisSteps] using hc, ?_⟩
    cases b <;> cases d <;> simp [axisSteps]
  | succ n ih =>
    intro c pos hc
    have hmod : (c + inc) % U32 = c + inc := Nat.mod_eq_of_lt (by omega)
    have hstep0 : axisSteps sec inc b d (n + 1) c pos
        = axisSteps sec inc b d n (axisTick sec inc b d c pos).1
            (axisTick sec inc b d c pos).2.1 := rfl
    by_cases hlt : sec < c + inc
    · have htick : axisTick sec inc b d c pos
          = (c + inc - sec,
             (if b then pos else if d then pos - 1 else pos + 1), true) := by
        simp [axisTick, hmod, hlt]
      have hc1 : c + inc - sec ≤ sec := by omega
      obtain ⟨k, hk1, hk2, hk3⟩ :=
        ih (c + inc - sec) (if b then pos else if d then pos - 1 else pos + 1) hc1
      refine ⟨k + 1, ?_, ?_, ?_⟩
      · rw [hstep0, htick]
        simp only
        have e1 : (k + 1) * sec = k * sec + sec := by ring
        have e2 : (n + 1) * inc = n * inc + inc := by ring
        omega
      · rw [hstep0, htick]
        simpa using hk2
      · rw [hstep0, htick]
        simp only
        rw [hk3]
        cases b <;> cases d <;> simp <;> push_cast <;> ring
    · have htick : axisTick sec inc b d c pos = (c + inc, pos, false) := by
        simp [axisTick, hmod, hlt]
      have hc1 : c + inc ≤ sec := by omega
      obtain ⟨k, hk1, hk2, hk3⟩ := ih (c + inc) pos hc1
      refine ⟨k, ?_, ?_, ?_⟩
      · rw [hstep0, htick]
        simp only
        have e2 : (n + 1) * inc = n * inc + inc := by ring
        omega
      · rw [hstep0, htick]
        simpa using hk2
      · rw [hstep0, htick]
        simpa using hk3

/-- The per-axis trace across a list of segments of one block: the
counter conservation and the position displacement accumulate, provided
every segment shares the backlash flag and its increment stays within
the event count. -/
theorem segsAxisFold_spec (sec stepsPre : Nat) (b d : Bool)
    (hsec : 2 * sec < U32) :
    ∀ (segs : List Stepper_Segment_t) c pos, c ≤ sec →
      (∀ seg ∈ segs, seg.backlash_motion = b) →
      (∀ seg ∈ segs, stepsPre >>> seg.amass_level ≤ sec) →
      ∃ K : Nat,
        (segsAxisFold sec stepsPre d segs c pos).1 + K * sec
          = c + (segs.map
              (fun sg => sg.n_step * (stepsPre >>> sg.amass_level))).sum
        ∧ (segsAxisFold sec stepsPre d segs c pos).1 ≤ sec
        ∧ (segsAxisFold sec stepsPre d segs c pos).2
            = (if b then pos else if d then pos - K else pos + K) := by
  intro segs
  induction segs with
  | nil =>
    intro c pos hc _ _
    refine ⟨0, by simp [segsAxisFold], by simpa [segsAxisFold] using hc, ?_⟩
    cases b <;> cases d <;> simp [segsAxisFold]
  | cons seg rest ih =>
    intro c pos hc hb hbound
    have hbseg : seg.backlash_motion = b := hb seg (by simp)
    have hincseg : stepsPre >>> seg.amass_level ≤ sec := hbound seg (by simp)
    obtain ⟨k, hk1, hk2, hk3⟩ :=
      axisSteps_spec sec (stepsPre >>> seg.amass_level) b d hincseg hsec
        seg.n_step c pos hc
    have hfold : segsAxisFold sec stepsPre d (seg :: rest) c pos
        = segsAxisFold sec stepsPre d rest
            (axisSteps sec (stepsPre >>> seg.amass_level) seg.backlash_motion d
              seg.n_step c pos).1
            (axisSteps sec (stepsPre >>> seg.amass_level) seg.backlash_motion d
              seg.n_step c pos).2 := rfl
    rw [hbseg] at hfold
    obtain ⟨K, hK1, hK2, hK3⟩ :=
      ih (axisSteps sec (stepsPre >>> seg.amass_level) b d seg.n_step c pos).1
        (axisSteps sec (stepsPre >>> seg.amass_level) b d seg.n_step c pos).2
        hk2 (fun s hs => hb s (by simp [hs])) (fun s hs => hbound s (by simp [hs]))
    refine ⟨k + K, ?_, ?_, ?_⟩
    · rw [hfold]
      simp only [List.map_cons, List.sum_cons]
      have e1 : (k + K) * sec = k * sec + K * sec := by ring
      omega
    · rw [hfold]
      exact hK2
    · rw [hfold]
      rw [hK3, hk3]
      cases b <;> cases d <;> simp <;> push_cast <;> ring

/-- The Bresenham emit count over a full block is pinned by the final
counter bound: starting from half the event count, adding s whole event
counts emits exactly s steps. -/
theorem bres_count_eq (sec K s cf : Nat) (hsec : 2 ≤ sec)
    (heq : cf + K * sec = sec / 2 + s * sec) (hcf : cf ≤ sec) : K = s := by
  have h3 : sec / 2 < sec := Nat.div_lt_self (by omega) (by omega)
  rcases Nat.lt_trichotomy K s with h | h | h
  · exfalso
    have h2 : (K + 1) * sec ≤ s * sec := Nat.mul_le_mul_right sec h
    rw [Nat.succ_mul] at h2
    omega
  · exact h
  · exfalso
    have h2 : (s + 1) * sec ≤ K * sec := Nat.mul_le_mul_right sec h
    rw [Nat.succ_mul] at h2
    omega

/-- The AMASS-prescaled axis count shifted right by a level at most 3 is
exact: no step information is lost. -/
theorem prescaled_shift (ps L : Nat) (hL : L ≤ 3) :
    (ps * 8) >>> L = ps * 2 ^ (3 - L) := by
  rw [Nat.shiftRight_eq_div_pow]
  have h8 : (8 : Nat) = 2 ^ 3 := by norm_num
  rw [h8, Nat.mul_div_assoc ps (pow_dvd_pow 2 hL), Nat.pow_div hL (by norm_num)]

/-- clampSegment only touches cycles_per_tick. -/
theorem clampSegment_fields (seg : Stepper_Segment_t) :
    (clampSegment seg).st_block_index = seg.st_block_index
    ∧ (clampSegment seg).n_step = seg.n_step
    ∧ (clampSegment seg).amass_level = seg.amass_level
    ∧ (clampSegment seg).backlash_motion = seg.backlash_motion
    ∧ (clampSegment seg).spindle_pwm = seg.spindle_pwm :=
  ⟨rfl, rfl, rfl, rfl, rfl⟩

/-- An ISR tick on a state with a loaded segment and block runs the
Bresenham phase on them. -/
theorem isr_tick_loaded (s : MachineState) (seg : Stepper_Segment_t)
    (blk : Stepper_Block_t) (hseg : s.exec_segment = some seg)
    (hblk : s.exec_block = some blk) :
    stepperMainISR s = some (bresPhase s seg blk) := by
  simp only [stepperMainISR, hseg, hblk]

/-- Peeling one defined tick off an ISR run. -/
theorem isrRun_succ_some (n : Nat) (s t : MachineState)
    (h : stepperMainISR s = some t) : isrRun (n + 1) s = isrRun n t := by
  simp only [isrRun, h]

/-- Splitting an ISR run at an intermediate tick count. -/
theorem isrRun_add (a b : Nat) : ∀ s : MachineState,
    isrRun (a + b) s =
      match isrRun a s with
      | none => none
      | some t => isrRun b t := by
  induction a with
  | zero =>
    intro s
    simp only [Nat.zero_add, isrRun]
  | succ a ih =>
    intro s
    have h1 : a + 1 + b = (a + b) + 1 := by omega
    rw [h1]
    cases hms : stepperMainISR s with
    | none => simp only [isrRun, hms]
    | some t =>
      simp only [isrRun, hms]
      exact ih t

/-- The continue branch of the Bresenham phase: every field except the
counters, positions, out bits and step count is untouched. -/
theorem bresPhase_cont_fields (s : MachineState) (seg : Stepper_Segment_t)
    (blk : Stepper_Block_t)
    (hsc : (if s.step_count = 0 then U16 - 1 else s.step_count - 1) ≠ 0) :
    (bresPhase s seg blk).exec_segment = s.exec_segment
    ∧ (bresPhase s seg blk).exec_block = s.exec_block
    ∧ (bresPhase s seg blk).exec_block_index = s.exec_block_index
    ∧ (bresPhase s seg blk).step_count
        = (if s.step_count = 0 then U16 - 1 else s.step_count - 1)
    ∧ (bresPhase s seg blk).steps_x = s.steps_x
    ∧ (bresPhase s seg blk).steps_y = s.steps_y
    ∧ (bresPhase s seg blk).steps_z = s.steps_z
    ∧ (bresPhase s seg blk).segment_buffer = s.segment_buffer
    ∧ (bresPhase s seg blk).segment_buffer_tail = s.segment_buffer_tail
    ∧ (bresPhase s seg blk).segment_buffer_head = s.segment_buffer_head
    ∧ (bresPhase s seg blk).segment_next_head = s.segment_next_head
    ∧ (bresPhase s seg blk).st_block_buffer = s.st_block_buffer := by
  simp only [bresPhase]
  rw [if_neg hsc]
  exact ⟨rfl, rfl, rfl, rfl, rfl, rfl, rfl, rfl, rfl, rfl, rfl, rfl⟩

/-- The segment-done branch of the Bresenham phase: the exec segment is
cleared and the tail advances; the block pointers and buffers are
untouched. -/
theorem bresPhase_done_fields (s : MachineState) (seg : Stepper_Segment_t)
    (blk : Stepper_Block_t)
    (hsc : (if s.step_count = 0 then U16 - 1 else s.step_count - 1) = 0) :
    (bresPhase s seg blk).exec_segment = none
    ∧ (bresPhase s seg blk).segment_buffer_tail
        = (if s.segment_buffer_tail + 1 = SEGMENT_BUFFER_SIZE then 0
           else s.segment_buffer_tail + 1)
    ∧ (bresPhase s seg blk).exec_block = s.exec_block
    ∧ (bresPhase s seg blk).exec_block_index = s.exec_block_index
    ∧ (bresPhase s seg blk).segment_buffer = s.segment_buffer
    ∧ (bresPhase s seg blk).segment_buffer_head = s.segment_buffer_head
    ∧ (bresPhase s seg blk).segment_next_head = s.segment_next_head
    ∧ (bresPhase s seg blk).st_block_buffer = s.st_block_buffer := by
  simp only [bresPhase]
  rw [if_pos hsc]
  exact ⟨rfl, rfl, rfl, rfl, rfl, rfl, rfl, rfl⟩

/-- Running a loaded segment to depletion: from a state holding a loaded
segment with step_count ticks left, the ISR runs exactly that many ticks,
each axis traces its axisSteps orbit, then the segment is released and
the ring tail advances once; the block pointers and the buffers are
untouched. -/
theorem segment_run (blk : Stepper_Block_t) (seg : Stepper_Segment_t) :
    ∀ (m : Nat) (s : MachineState),
      s.exec_segment = some seg → s.exec_block = some blk →
      s.step_count = m + 1 → m + 1 < U16 →
      ∃ sf, isrRun (m + 1) s = some sf
        ∧ sf.counter_x = (axisSteps blk.step_event_count s.steps_x
            seg.backlash_motion (blk.direction_bits.testBit X_DIRECTION_BIT)
            (m + 1) s.counter_x s.sys_position_x).1
        ∧ sf.sys_position_x = (axisSteps blk.step_event_count s.steps_x
            seg.backlash_motion (blk.direction_bits.testBit X_DIRECTION_BIT)
            (m + 1) s.counter_x s.sys_position_x).2
        ∧ sf.counter_y = (axisSteps blk.step_event_count s.steps_y
            seg.backlash_motion (blk.direction_bits.testBit Y_DIRECTION_BIT)
            (m + 1) s.counter_y s.sys_position_y).1
        ∧ sf.sys_position_y = (axisSteps blk.step_event_count s.steps_y
            seg.backlash_motion (blk.direction_bits.testBit Y_DIRECTION_BIT)
            (m + 1) s.counter_y s.sys_position_y).2
        ∧ sf.counter_z = (axisSteps blk.step_event_count s.steps_z
            seg.backlash_motion (blk.direction_bits.testBit Z_DIRECTION_BIT)
            (m + 1) s.counter_z s.sys_position_z).1
        ∧ sf.sys_position_z = (axisSteps blk.step_event_count s.steps_z
            seg.backlash_motion (blk.direction_bits.testBit Z_DIRECTION_BIT)
            (m + 1) s.counter_z s.sys_position_z).2
        ∧ sf.exec_segment = none
        ∧ sf.exec_block = s.exec_block
        ∧ sf.exec_block_index = s.exec_block_index
        ∧ sf.segment_buffer = s.segment_buffer
        ∧ sf.segment_buffer_tail
            = (if s.segment_buffer_tail + 1 = SEGMENT_BUFFER_SIZE then 0
               else s.segment_buffer_tail + 1)
        ∧ sf.segment_buffer_head = s.segment_buffer_head
        ∧ sf.segment_next_head = s.segment_next_head
        ∧ sf.st_block_buffer = s.st_block_buffer := by
  intro m
  induction m with
  | zero =>
    intro s hseg hblk hsc hlt
    have hisr := isr_tick_loaded s seg blk hseg hblk
    have hrun : isrRun 1 s = some (bresPhase s seg blk) := by
      simp only [isrRun, hisr]
    have hdone : (if s.step_count = 0 then U16 - 1 else s.step_count - 1) = 0 := by
      rw [hsc]
      simp
    obtain ⟨hd1, hd2, hd3, hd4, hd5, hd6, hd7, hd8⟩ :=
      bresPhase_done_fields s seg blk hdone
    obtain ⟨hp1, hp2, hp3, hp4, hp5, hp6, _⟩ := bresPhase_proj s seg blk
    exact ⟨bresPhase s seg blk, hrun, hp1, hp2, hp3, hp4, hp5, hp6,
      hd1, hd3, hd4, hd5, hd2, hd6, hd7, hd8⟩
  | succ m ih =>
    intro s hseg hblk hsc hlt
    have hisr := isr_tick_loaded s seg blk hseg hblk
    have hcont : (if s.step_count = 0 then U16 - 1 else s.step_count - 1) ≠ 0 := by
      rw [hsc]
      simp
    obtain ⟨hc1, hc2, hc3, hc4, hc5, hc6, hc7, hc8, hc9, hc10, hc11, hc12⟩ :=
      bresPhase_cont_fields s seg blk hcont
    obtain ⟨hp1, hp2, hp3, hp4, hp5, hp6, _⟩ := bresPhase_proj s seg blk
    have hsc' : (bresPhase s seg blk).step_count = m + 1 := by
      rw [hc4, hsc]
      simp
    obtain ⟨sf, hrun, hx1, hx2, hy1, hy2, hz1, hz2, he1, he2, he3, hb1, hb2,
        hb3, hb4, hb5⟩ :=
      ih (bresPhase s seg blk) (hc1.trans hseg) (hc2.trans hblk) hsc'
        (by omega)
    refine ⟨sf, ?_, ?_, ?_, ?_, ?_, ?_, ?_, he1, he2.trans hc2, he3.trans hc3,
      hb1.trans hc8, ?_, hb3.trans hc10, hb4.trans hc11, hb5.trans hc12⟩
    · exact (isrRun_succ_some (m + 1) s _ hisr).trans hrun
    · rw [hx1, hc5, hp1, hp2]
      rfl
    · rw [hx2, hc5, hp1, hp2]
      rfl
    · rw [hy1, hc6, hp3, hp4]
      rfl
    · rw [hy2, hc6, hp3, hp4]
      rfl
    · rw [hz1, hc7, hp5, hp6]
      rfl
    · rw [hz2, hc7, hp5, hp6]
      rfl
    · rw [hb2, hc9]

/-- The segment loader on a block index change: the tail slot is clamped
in place, the timer is programmed, the exec block is re-pointed into the
pool and the Bresenham counters reset to half the event count. -/
theorem loadSegment_new (s : MachineState)
    (hne : s.exec_block_index
      ≠ (clampSegment (s.segment_buffer s.segment_buffer_tail)).st_block_index) :
    loadSegment s = some (
      let seg := clampSegment (s.segment_buffer s.segment_buffer_tail)
      let blk := s.st_block_buffer seg.st_block_index
      { s with
        segment_buffer := fun i =>
          if i = s.segment_buffer_tail then seg else s.segment_buffer i,
        exec_segment := some seg,
        tim_arr := seg.cycles_per_tick,
        tim_ccr1 := seg.cycles_per_tick * 3 / 4,
        step_count := seg.n_step,
        exec_block_index := seg.st_block_index,
        exec_block := some blk,
        counter_x := blk.step_event_count >>> 1,
        counter_y := blk.step_event_count >>> 1,
        counter_z := blk.step_event_count >>> 1,
        dir_outbits := blk.direction_bits ^^^ s.dir_port_invert_mask,
        steps_x := blk.steps_x >>> seg.amass_level,
        steps_y := blk.steps_y >>> seg.amass_level,
        steps_z := blk.steps_z >>> seg.amass_level,
        spindle_pwm_out := seg.spindle_pwm }) := by
  simp only [loadSegment]
  rw [if_pos hne]

/-- The segment loader with an unchanged block index: the counters and
the exec block stay, the tail slot is clamped in place, the timer is
programmed and the AMASS-shifted increments latched. -/
theorem loadSegment_eq (s : MachineState) (blk : Stepper_Block_t)
    (hidx : ¬ s.exec_block_index
      ≠ (clampSegment (s.segment_buffer s.segment_buffer_tail)).st_block_index)
    (hblk : s.exec_block = some blk) :
    loadSegment s = some (
      let seg := clampSegment (s.segment_buffer s.segment_buffer_tail)
      { s with
        segment_buffer := fun i =>
          if i = s.segment_buffer_tail then seg else s.segment_buffer i,
        exec_segment := some seg,
        tim_arr := seg.cycles_per_tick,
        tim_ccr1 := seg.cycles_per_tick * 3 / 4,
        step_count := seg.n_step,
        dir_outbits := blk.direction_bits ^^^ s.dir_port_invert_mask,
        steps_x := blk.steps_x >>> seg.amass_level,
        steps_y := blk.steps_y >>> seg.amass_level,
        steps_z := blk.steps_z >>> seg.amass_level,
        spindle_pwm_out := seg.spindle_pwm }) := by
  simp only [loadSegment]
  rw [if_neg hidx]
  dsimp only
  rw [hblk]

/-- An ISR tick on a state with no loaded segment and a non-empty ring
loads the tail segment and immediately runs the Bresenham phase on the
loaded state. -/
theorem isr_tick_load (s s1 : MachineState) (cseg : Stepper_Segment_t)
    (blk : Stepper_Block_t)
    (hnone : s.exec_segment = none)
    (hht : s.segment_buffer_head ≠ s.segment_buffer_tail)
    (hload : loadSegment s = some s1)
    (hseg : s1.exec_segment = some cseg)
    (hblk : s1.exec_block = some blk) :
    stepperMainISR s = some (bresPhase s1 cseg blk) := by
  simp only [stepperMainISR, hnone]
  rw [if_pos hht]
  simp only [hload, hseg, hblk]

/-- Loading and then ticking is the same run as ticking from the loaded
state: the loading ISR call already performs the first Bresenham tick. -/
theorem isrRun_load_bridge (s s1 : MachineState) (cseg : Stepper_Segment_t)
    (blk : Stepper_Block_t) (m : Nat)
    (hnone : s.exec_segment = none)
    (hht : s.segment_buffer_head ≠ s.segment_buffer_tail)
    (hload : loadSegment s = some s1)
    (hseg : s1.exec_segment = some cseg)
    (hblk : s1.exec_block = some blk) :
    isrRun (m + 1) s = isrRun (m + 1) s1 := by
  have h1 := isrRun_succ_some m s (bresPhase s1 cseg blk)
    (isr_tick_load s s1 cseg blk hnone hht hload hseg hblk)
  have h2 := isrRun_succ_some m s1 (bresPhase s1 cseg blk)
    (isr_tick_loaded s1 cseg blk hseg hblk)
  rw [h1, h2]

/-- Executing a queue of segments that all point at the already-loaded
block: the ISR consumes them in exactly the sum of their step counts,
each axis runs its segsAxisFold trace with the counters carried across
segment boundaries, and the tail advances once per segment. -/
theorem block_run (blk : Stepper_Block_t) (bi : Nat) :
    ∀ (segs : List Stepper_Segment_t) (s : MachineState),
      s.exec_segment = none →
      s.exec_block = some blk →
      s.exec_block_index = bi →
      s.segment_buffer_tail < SEGMENT_BUFFER_SIZE →
      s.segment_buffer_head
        = (s.segment_buffer_tail + segs.length) % SEGMENT_BUFFER_SIZE →
      segs.length ≤ SEGMENT_BUFFER_SIZE - 1 →
      (∀ k (hk : k < segs.length),
        s.segment_buffer ((s.segment_buffer_tail + k) % SEGMENT_BUFFER_SIZE)
          = segs.get ⟨k, hk⟩) →
      (∀ sg ∈ segs, sg.st_block_index = bi ∧ 1 ≤ sg.n_step ∧ sg.n_step < U16) →
      ∃ sf, isrRun ((segs.map Stepper_Segment_t.n_step).sum) s = some sf
        ∧ (sf.counter_x, sf.sys_position_x)
            = segsAxisFold blk.step_event_count blk.steps_x
                (blk.direction_bits.testBit X_DIRECTION_BIT) segs
                s.counter_x s.sys_position_x
        ∧ (sf.counter_y, sf.sys_position_y)
            = segsAxisFold blk.step_event_count blk.steps_y
                (blk.direction_bits.testBit Y_DIRECTION_BIT) segs
                s.counter_y s.sys_position_y
        ∧ (sf.counter_z, sf.sys_position_z)
            = segsAxisFold blk.step_event_count blk.steps_z
                (blk.direction_bits.testBit Z_DIRECTION_BIT) segs
                s.counter_z s.sys_position_z
        ∧ sf.exec_segment = none
        ∧ sf.exec_block = some blk
        ∧ sf.exec_block_index = bi
        ∧ sf.segment_buffer_tail
            = (s.segment_buffer_tail + segs.length) % SEGMENT_BUFFER_SIZE
        ∧ sf.segment_buffer_head = s.segment_buffer_head
        ∧ sf.st_block_buffer = s.st_block_buffer := by
  intro segs
  induction segs with
  | nil =>
    intro s hnone hblk hidx htail hhead hlen hslots hsegs
    refine ⟨s, by simp [isrRun], by simp [segsAxisFold], by simp [segsAxisFold],
      by simp [segsAxisFold], hnone, hblk, hidx, ?_, rfl, rfl⟩
    simp only [List.length_nil, Nat.add_zero]
    exact (Nat.mod_eq_of_lt htail).symm
  | cons seg rest ih =>
    intro s hnone hblk hidx htail hhead hlen hslots hsegs
    have hSZ : SEGMENT_BUFFER_SIZE = 10 := rfl
    obtain ⟨hsbi, hn1, hnU⟩ := hsegs seg (List.mem_cons_self seg rest)
    have htailn : s.segment_buffer_tail < 10 := hSZ ▸ htail
    have hlen8 : rest.length ≤ 8 := by
      have h := hlen
      rw [List.length_cons, hSZ] at h
      omega
    have hlen' : rest.length ≤ SEGMENT_BUFFER_SIZE - 1 := by
      rw [hSZ]
      omega
    have hlenc : (seg :: rest).length = rest.length + 1 := List.length_cons seg rest
    have hslot0 : s.segment_buffer s.segment_buffer_tail = seg := by
      have h0 := hslots 0 (by simp)
      rwa [Nat.add_zero, Nat.mod_eq_of_lt htail] at h0
    have hidx' : ¬ s.exec_block_index
        ≠ (clampSegment (s.segment_buffer s.segment_buffer_tail)).st_block_index := by
      rw [hslot0]
      simp [clampSegment, hsbi, hidx]
    set s1 : MachineState := { s with
      segment_buffer := fun i =>
        if i = s.segment_buffer_tail then clampSegment seg
        else s.segment_buffer i,
      exec_segment := some (clampSegment seg),
      tim_arr := (clampSegment seg).cycles_per_tick,
      tim_ccr1 := (clampSegment seg).cycles_per_tick * 3 / 4,
      step_count := (clampSegment seg).n_step,
      dir_outbits := blk.direction_bits ^^^ s.dir_port_invert_mask,
      steps_x := blk.steps_x >>> (clampSegment seg).amass_level,
      steps_y := blk.steps_y >>> (clampSegment seg).amass_level,
      steps_z := blk.steps_z >>> (clampSegment seg).amass_level,
      spindle_pwm_out := (clampSegment seg).spindle_pwm } with hs1
    have hload : loadSegment s = some s1 := by
      rw [loadSegment_eq s blk hidx' hblk]
      simp only [hslot0]
    obtain ⟨m, hm⟩ : ∃ m, seg.n_step = m + 1 := ⟨seg.n_step - 1, by omega⟩
    have hht : s.segment_buffer_head ≠ s.segment_buffer_tail := by
      rw [hhead, hlenc, hSZ]
      omega
    have hs1tail : s1.segment_buffer_tail = s.segment_buffer_tail := by
      rw [hs1]
    have hs1head : s1.segment_buffer_head = s.segment_buffer_head := by
      rw [hs1]
    have hsc1 : s1.step_count = m + 1 := by
      rw [hs1]
      exact hm
    obtain ⟨sf0, hrun0, hx1, hx2, hy1, hy2, hz1, hz2, he1, he2, he3, hb1, hb2,
        hb3, hb4, hb5⟩ :=
      segment_run blk (clampSegment seg) m s1 rfl hblk hsc1 (by omega)
    have hfirst : isrRun seg.n_step s = some sf0 := by
      rw [hm, isrRun_load_bridge s s1 (clampSegment seg) blk m hnone hht hload
        rfl hblk]
      exact hrun0
    have htail0 : sf0.segment_buffer_tail
        = (s.segment_buffer_tail + 1) % SEGMENT_BUFFER_SIZE := by
      rw [hb2, hs1tail, hSZ]
      split <;> omega
    have hexb : sf0.exec_block = some blk := he2.trans hblk
    have hexbi : sf0.exec_block_index = bi := he3.trans hidx
    have htail0' : sf0.segment_buffer_tail < SEGMENT_BUFFER_SIZE := by
      rw [htail0, hSZ]
      omega
    have hhead0 : sf0.segment_buffer_head
        = (sf0.segment_buffer_tail + rest.length) % SEGMENT_BUFFER_SIZE := by
      rw [hb3, hs1head, htail0, hhead, hlenc, hSZ]
      omega
    have hslots0 : ∀ k (hk : k < rest.length),
        sf0.segment_buffer
            ((sf0.segment_buffer_tail + k) % SEGMENT_BUFFER_SIZE)
          = rest.get ⟨k, hk⟩ := by
      intro k hk
      rw [hb1, htail0]
      show (if ((s.segment_buffer_tail + 1) % SEGMENT_BUFFER_SIZE + k)
            % SEGMENT_BUFFER_SIZE = s.segment_buffer_tail
          then clampSegment seg
          else s.segment_buffer (((s.segment_buffer_tail + 1)
            % SEGMENT_BUFFER_SIZE + k) % SEGMENT_BUFFER_SIZE))
        = rest.get ⟨k, hk⟩
      have hne : ((s.segment_buffer_tail + 1) % SEGMENT_BUFFER_SIZE + k)
          % SEGMENT_BUFFER_SIZE ≠ s.segment_buffer_tail := by
        rw [hSZ]
        omega
      rw [if_neg hne]
      have hidxeq : ((s.segment_buffer_tail + 1) % SEGMENT_BUFFER_SIZE + k)
          % SEGMENT_BUFFER_SIZE
          = (s.segment_buffer_tail + (k + 1)) % SEGMENT_BUFFER_SIZE := by
        rw [hSZ]
        omega
      rw [hidxeq]
      have hk1 := hslots (k + 1) (by rw [hlenc]; omega)
      rw [hk1]
      rfl
    have hsegs' : ∀ sg ∈ rest, sg.st_block_index = bi ∧ 1 ≤ sg.n_step
        ∧ sg.n_step < U16 :=
      fun sg hsg => hsegs sg (List.mem_cons_of_mem seg hsg)
    obtain ⟨sf, hrun, hX, hY, hZ, hf1, hf2, hf3, hf4, hf5, hf6⟩ :=
      ih sf0 he1 hexb hexbi htail0' hhead0 hlen' hslots0 hsegs'
    have hx1' : sf0.counter_x = (axisSteps blk.step_event_count
        (blk.steps_x >>> seg.amass_level) seg.backlash_motion
        (blk.direction_bits.testBit X_DIRECTION_BIT) seg.n_step
        s.counter_x s.sys_position_x).1 := by
      rw [hm]
      exact hx1
    have hx2' : sf0.sys_position_x = (axisSteps blk.step_event_count
        (blk.steps_x >>> seg.amass_level) seg.backlash_motion
        (blk.direction_bits.testBit X_DIRECTION_BIT) seg.n_step
        s.counter_x s.sys_position_x).2 := by
      rw [hm]
      exact hx2
    have hy1' : sf0.counter_y = (axisSteps blk.step_event_count
        (blk.steps_y >>> seg.amass_level) seg.backlash_motion
        (blk.direction_bits.testBit Y_DIRECTION_BIT) seg.n_step
        s.counter_y s.sys_position_y).1 := by
      rw [hm]
      exact hy1
    have hy2' : sf0.sys_position_y = (axisSteps blk.step_event_count
        (blk.steps_y >>> seg.amass_level) seg.backlash_motion
        (blk.direction_bits.testBit Y_DIRECTION_BIT) seg.n_step
        s.counter_y s.sys_position_y).2 := by
      rw [hm]
      exact hy2
    have hz1' : sf0.counter_z = (axisSteps blk.step_event_count
        (blk.steps_z >>> seg.amass_level) seg.backlash_motion
        (blk.direction_bits.testBit Z_DIRECTION_BIT) seg.n_step
        s.counter_z s.sys_position_z).1 := by
      rw [hm]
      exact hz1
    have hz2' : sf0.sys_position_z = (axisSteps blk.step_event_count
        (blk.steps_z >>> seg.amass_level) seg.backlash_motion
        (blk.direction_bits.testBit Z_DIRECTION_BIT) seg.n_step
        s.counter_z s.sys_position_z).2 := by
      rw [hm]
      exact hz2
    refine ⟨sf, ?_, ?_, ?_, ?_, hf1, hf2, hf3, ?_, ?_, ?_⟩
    · simp only [List.map_cons, List.sum_cons]
      rw [isrRun_add, hfirst]
      exact hrun
    · simp only [segsAxisFold]
      rw [hX, hx1', hx2']
    · simp only [segsAxisFold]
      rw [hY, hy1', hy2']
    · simp only [segsAxisFold]
      rw [hZ, hz1', hz2']
    · rw [hf4, htail0, hlenc, hSZ]
      omega
    · exact hf5.trans hb3
    · exact hf6.trans hb5

/-- Executing a freshly queued block from scratch: the previous block
index differs, so the first load re-points the exec block into the pool
and resets the Bresenham counters to half the event count; then the
whole queue runs as a segsAxisFold trace from that half-count start. -/
theorem block_run_fresh (blk : Stepper_Block_t) (bi : Nat)
    (seg0 : Stepper_Segment_t) (rest : List Stepper_Segment_t)
    (s0 : MachineState)
    (hpool : s0.st_block_buffer bi = blk)
    (hnone : s0.exec_segment = none)
    (hidx0 : s0.exec_block_index ≠ bi)
    (htail : s0.segment_buffer_tail < SEGMENT_BUFFER_SIZE)
    (hhead : s0.segment_buffer_head
      = (s0.segment_buffer_tail + (seg0 :: rest).length) % SEGMENT_BUFFER_SIZE)
    (hlen : (seg0 :: rest).length ≤ SEGMENT_BUFFER_SIZE - 1)
    (hslots : ∀ k (hk : k < (seg0 :: rest).length),
      s0.segment_buffer ((s0.segment_buffer_tail + k) % SEGMENT_BUFFER_SIZE)
        = (seg0 :: rest).get ⟨k, hk⟩)
    (hsegs : ∀ sg ∈ (seg0 :: rest), sg.st_block_index = bi
      ∧ 1 ≤ sg.n_step ∧ sg.n_step < U16) :
    ∃ sf, isrRun (((seg0 :: rest).map Stepper_Segment_t.n_step).sum) s0
        = some sf
      ∧ (sf.counter_x, sf.sys_position_x)
          = segsAxisFold blk.step_event_count blk.steps_x
              (blk.direction_bits.testBit X_DIRECTION_BIT) (seg0 :: rest)
              (blk.step_event_count >>> 1) s0.sys_position_x
      ∧ (sf.counter_y, sf.sys_position_y)
          = segsAxisFold blk.step_event_count blk.steps_y
              (blk.direction_bits.testBit Y_DIRECTION_BIT) (seg0 :: rest)
              (blk.step_event_count >>> 1) s0.sys_position_y
      ∧ (sf.counter_z, sf.sys_position_z)
          = segsAxisFold blk.step_event_count blk.steps_z
              (blk.direction_bits.testBit Z_DIRECTION_BIT) (seg0 :: rest)
              (blk.step_event_count >>> 1) s0.sys_position_z
      ∧ sf.exec_segment = none := by
  have hSZ : SEGMENT_BUFFER_SIZE = 10 := rfl
  have htailn : s0.segment_buffer_tail < 10 := hSZ ▸ htail
  obtain ⟨hsbi0, hn10, hnU0⟩ := hsegs seg0 (List.mem_cons_self seg0 rest)
  have hlenc : (seg0 :: rest).length = rest.length + 1 :=
    List.length_cons seg0 rest
  have hlen8 : rest.length ≤ 8 := by
    have h := hlen
    rw [hlenc, hSZ] at h
    omega
  have hslot0 : s0.segment_buffer s0.segment_buffer_tail = seg0 := by
    have h0 := hslots 0 (by simp)
    rwa [Nat.add_zero, Nat.mod_eq_of_lt htail] at h0
  have hne : s0.exec_block_index
      ≠ (clampSegment (s0.segment_buffer s0.segment_buffer_tail)).st_block_index := by
    rw [hslot0, (clampSegment_fields seg0).1, hsbi0]
    exact hidx0
  set s1 : MachineState := { s0 with
    segment_buffer := fun i =>
      if i = s0.segment_buffer_tail then clampSegment seg0
      else s0.segment_buffer i,
    exec_segment := some (clampSegment seg0),
    tim_arr := (clampSegment seg0).cycles_per_tick,
    tim_ccr1 := (clampSegment seg0).cycles_per_tick * 3 / 4,
    step_count := (clampSegment seg0).n_step,
    exec_block_index := (clampSegment seg0).st_block_index,
    exec_block :=
      some (s0.st_block_buffer (clampSegment seg0).st_block_index),
    counter_x :=
      (s0.st_block_buffer (clampSegment seg0).st_block_index).step_event_count >>> 1,
    counter_y :=
      (s0.st_block_buffer (clampSegment seg0).st_block_index).step_event_count >>> 1,
    counter_z :=
      (s0.st_block_buffer (clampSegment seg0).st_block_index).step_event_count >>> 1,
    dir_outbits :=
      (s0.st_block_buffer (clampSegment seg0).st_block_index).direction_bits
        ^^^ s0.dir_port_invert_mask,
    steps_x :=
      (s0.st_block_buffer (clampSegment seg0).st_block_index).steps_x
        >>> (clampSegment seg0).amass_level,
    steps_y :=
      (s0.st_block_buffer (clampSegment seg0).st_block_index).steps_y
        >>> (clampSegment seg0).amass_level,
    steps_z :=
      (s0.st_block_buffer (clampSegment seg0).st_block_index).steps_z
        >>> (clampSegment seg0).amass_level,
    spindle_pwm_out := (clampSegment seg0).spindle_pwm } with hs1
  have hload : loadSegment s0 = some s1 := by
    rw [loadSegment_new s0 hne]
    simp only [hslot0]
  have hpool' : s0.st_block_buffer (clampSegment seg0).st_block_index = blk := by
    rw [(clampSegment_fields seg0).1, hsbi0, hpool]
  have hs1blk : s1.exec_block = some blk := by
    show some (s0.st_block_buffer (clampSegment seg0).st_block_index) = some blk
    rw [hpool']
  obtain ⟨m0, hm0⟩ : ∃ m, seg0.n_step = m + 1 := ⟨seg0.n_step - 1, by omega⟩
  have hsc1 : s1.step_count = m0 + 1 := hm0
  have hht : s0.segment_buffer_head ≠ s0.segment_buffer_tail := by
    rw [hhead, hlenc, hSZ]
    omega
  obtain ⟨sf0, hrun0, hx1, hx2, hy1, hy2, hz1, hz2, he1, he2, he3, hb1, hb2,
      hb3, hb4, hb5⟩ :=
    segment_run blk (clampSegment seg0) m0 s1 rfl hs1blk hsc1 (by omega)
  have hfirst : isrRun seg0.n_step s0 = some sf0 := by
    rw [hm0, isrRun_load_bridge s0 s1 (clampSegment seg0) blk m0 hnone hht
      hload rfl hs1blk]
    exact hrun0
  have hexb : sf0.exec_block = some blk := he2.trans hs1blk
  have hexbi : sf0.exec_block_index = bi := by
    rw [he3]
    show (clampSegment seg0).st_block_index = bi
    rw [(clampSegment_fields seg0).1, hsbi0]
  have htail0 : sf0.segment_buffer_tail
      = (s0.segment_buffer_tail + 1) % SEGMENT_BUFFER_SIZE := by
    rw [hb2]
    show (if s0.segment_buffer_tail + 1 = SEGMENT_BUFFER_SIZE then 0
      else s0.segment_buffer_tail + 1) = _
    rw [hSZ]
    split <;> omega
  have htail0' : sf0.segment_buffer_tail < SEGMENT_BUFFER_SIZE := by
    rw [htail0, hSZ]
    omega
  have hhead0 : sf0.segment_buffer_head
      = (sf0.segment_buffer_tail + rest.length) % SEGMENT_BUFFER_SIZE := by
    have hh : sf0.segment_buffer_head = s0.segment_buffer_head := hb3
    rw [hh, htail0, hhead, hlenc, hSZ]
    omega
  have hslots0 : ∀ k (hk : k < rest.length),
      sf0.segment_buffer
          ((sf0.segment_buffer_tail + k) % SEGMENT_BUFFER_SIZE)
        = rest.get ⟨k, hk⟩ := by
    intro k hk
    rw [hb1, htail0]
    show (if ((s0.segment_buffer_tail + 1) % SEGMENT_BUFFER_SIZE + k)
          % SEGMENT_BUFFER_SIZE = s0.segment_buffer_tail
        then clampSegment seg0
        else s0.segment_buffer (((s0.segment_buffer_tail + 1)
          % SEGMENT_BUFFER_SIZE + k) % SEGMENT_BUFFER_SIZE))
      = rest.get ⟨k, hk⟩
    have hnei : ((s0.segment_buffer_tail + 1) % SEGMENT_BUFFER_SIZE + k)
        % SEGMENT_BUFFER_SIZE ≠ s0.segment_buffer_tail := by
      rw [hSZ]
      omega
    rw [if_neg hnei]
    have hidxeq : ((s0.segment_buffer_tail + 1) % SEGMENT_BUFFER_SIZE + k)
        % SEGMENT_BUFFER_SIZE
        = (s0.segment_buffer_tail + (k + 1)) % SEGMENT_BUFFER_SIZE := by
      rw [hSZ]
      omega
    rw [hidxeq]
    have hk1 := hslots (k + 1) (by rw [hlenc]; omega)
    rw [hk1]
    rfl
  have hsegs' : ∀ sg ∈ rest, sg.st_block_index = bi ∧ 1 ≤ sg.n_step
      ∧ sg.n_step < U16 :=
    fun sg hsg => hsegs sg (List.mem_cons_of_mem seg0 hsg)
  obtain ⟨sf, hrun, hX, hY, hZ, hf1, _, _, _, _, _⟩ :=
    block_run blk bi rest sf0 he1 hexb hexbi htail0' hhead0
      (by rw [hSZ]; omega) hslots0 hsegs'
  have hs1sx : s1.steps_x = blk.steps_x >>> seg0.amass_level := by
    show (s0.st_block_buffer (clampSegment seg0).st_block_index).steps_x
      >>> (clampSegment seg0).amass_level = _
    rw [hpool']
    rfl
  have hs1sy : s1.steps_y = blk.steps_y >>> seg0.amass_level := by
    show (s0.st_block_buffer (clampSegment seg0).st_block_index).steps_y
      >>> (clampSegment seg0).amass_level = _
    rw [hpool']
    rfl
  have hs1sz : s1.steps_z = blk.steps_z >>> seg0.amass_level := by
    show (s0.st_block_buffer (clampSegment seg0).st_block_index).steps_z
      >>> (clampSegment seg0).amass_level = _
    rw [hpool']
    rfl
  have hs1c : s1.counter_x = blk.step_event_count >>> 1 := by
    show (s0.st_block_buffer
      (clampSegment seg0).st_block_index).step_event_count >>> 1 = _
    rw [hpool']
  have hx1' : sf0.counter_x = (axisSteps blk.step_event_count
      (blk.steps_x >>> seg0.amass_level) seg0.backlash_motion
      (blk.direction_bits.testBit X_DIRECTION_BIT) seg0.n_step
      (blk.step_event_count >>> 1) s0.sys_position_x).1 := by
    rw [hm0, ← hs1sx, ← hs1c]
    exact hx1
  have hx2' : sf0.sys_position_x = (axisSteps blk.step_event_count
      (blk.steps_x >>> seg0.amass_level) seg0.backlash_motion
      (blk.direction_bits.testBit X_DIRECTION_BIT) seg0.n_step
      (blk.step_event_count >>> 1) s0.sys_position_x).2 := by
    rw [hm0, ← hs1sx, ← hs1c]
    exact hx2
  have hy1' : sf0.counter_y = (axisSteps blk.step_event_count
      (blk.steps_y >>> seg0.amass_level) seg0.backlash_motion
      (blk.direction_bits.testBit Y_DIRECTION_BIT) seg0.n_step
      (blk.step_event_count >>> 1) s0.sys_position_y).1 := by
    rw [hm0, ← hs1sy, ← hs1c]
    exact hy1
  have hy2' : sf0.sys_position_y = (axisSteps blk.step_event_count
      (blk.steps_y >>> seg0.amass_level) seg0.backlash_motion
      (blk.direction_bits.testBit Y_DIRECTION_BIT) seg0.n_step
      (blk.step_event_count >>> 1) s0.sys_position_y).2 := by
    rw [hm0, ← hs1sy, ← hs1c]
    exact hy2
  have hz1' : sf0.counter_z = (axisSteps blk.step_event_count
      (blk.steps_z >>> seg0.amass_level) seg0.backlash_motion
      (blk.direction_bits.testBit Z_DIRECTION_BIT) seg0.n_step
      (blk.step_event_count >>> 1) s0.sys_position_z).1 := by
    rw [hm0, ← hs1sz, ← hs1c]
    exact hz1
  have hz2' : sf0.sys_position_z = (axisSteps blk.step_event_count
      (blk.steps_z >>> seg0.amass_level) seg0.backlash_motion
      (blk.direction_bits.testBit Z_DIRECTION_BIT) seg0.n_step
      (blk.step_event_count >>> 1) s0.sys_position_z).2 := by
    rw [hm0, ← hs1sz, ← hs1c]
    exact hz2
  refine ⟨sf, ?_, ?_, ?_, ?_, hf1⟩
  · simp only [List.map_cons, List.sum_cons]
    rw [isrRun_add, hfirst]
    exact hrun
  · simp only [segsAxisFold]
    rw [hX, hx1', hx2']
  · simp only [segsAxisFold]
    rw [hY, hy1', hy2']
  · simp only [segsAxisFold]
    rw [hZ, hz1', hz2']

/-- Factoring the pre-scaled axis count out of the total increment sum
of a segment list whose AMASS levels are in range. -/
theorem segs_increment_sum (ps : Nat) :
    ∀ (segs : List Stepper_Segment_t),
      (∀ sg ∈ segs, sg.amass_level ≤ 3) →
      (segs.map (fun sg => sg.n_step * ((ps * 8) >>> sg.amass_level))).sum
        = ps * (segs.map
            (fun sg => sg.n_step * 2 ^ (3 - sg.amass_level))).sum := by
  intro segs
  induction segs with
  | nil =>
    intro _
    simp
  | cons sg rest ih =>
    intro h
    simp only [List.map_cons, List.sum_cons]
    rw [ih (fun x hx => h x (List.mem_cons_of_mem sg hx)),
      prescaled_shift ps sg.amass_level (h sg (List.mem_cons_self sg rest))]
    ring

/-- C1: a planner block whose segments are all queued in the ring and
then executed to completion by the ISR moves sys_position on each axis
by exactly the planner step count, negated exactly when the axis bit is
set in direction_bits, and not at all for a backlash-compensation block.
The pool block holds the planner counts pre-scaled by MAX_AMASS_LEVEL as
Stepper_PrepareBuffer stores them, and the queued segments cover the
block exactly: their AMASS-weighted step counts sum to the pre-scaled
event count. -/
theorem c1_block_position_conservation
    (pb : Planner_Block_t) (blk : Stepper_Block_t) (bi : Nat)
    (segs : List Stepper_Segment_t) (s0 : MachineState)
    (hpool : s0.st_block_buffer bi = blk)
    (hbx : blk.steps_x = pb.steps_x * 8)
    (hby : blk.steps_y = pb.steps_y * 8)
    (hbz : blk.steps_z = pb.steps_z * 8)
    (hbe : blk.step_event_count = pb.step_event_count * 8)
    (hbd : blk.direction_bits = pb.direction_bits)
    (hE1 : 1 ≤ pb.step_event_count)
    (hEb : pb.step_event_count * 8 < 2 ^ 31)
    (hpx : pb.steps_x ≤ pb.step_event_count)
    (hpy : pb.steps_y ≤ pb.step_event_count)
    (hpz : pb.steps_z ≤ pb.step_event_count)
    (hnone : s0.exec_segment = none)
    (hidx0 : s0.exec_block_index ≠ bi)
    (htail : s0.segment_buffer_tail < SEGMENT_BUFFER_SIZE)
    (hhead : s0.segment_buffer_head
      = (s0.segment_buffer_tail + segs.length) % SEGMENT_BUFFER_SIZE)
    (hlen : segs.length ≤ SEGMENT_BUFFER_SIZE - 1)
    (hslots : ∀ k (hk : k < segs.length),
      s0.segment_buffer ((s0.segment_buffer_tail + k) % SEGMENT_BUFFER_SIZE)
        = segs.get ⟨k, hk⟩)
    (hsegs : ∀ sg ∈ segs, sg.st_block_index = bi
      ∧ sg.backlash_motion = pb.backlash_motion
      ∧ sg.amass_level ≤ MAX_AMASS_LEVEL
      ∧ 1 ≤ sg.n_step ∧ sg.n_step < U16)
    (hsum : (segs.map
        (fun sg => sg.n_step * 2 ^ (MAX_AMASS_LEVEL - sg.amass_level))).sum
      = pb.step_event_count * 8) :
    ∃ sf, isrRun ((segs.map Stepper_Segment_t.n_step).sum) s0 = some sf
      ∧ sf.sys_position_x - s0.sys_position_x
          = (if pb.backlash_motion then 0
             else if pb.direction_bits.testBit X_DIRECTION_BIT
             then -(pb.steps_x : Int) else (pb.steps_x : Int))
      ∧ sf.sys_position_y - s0.sys_position_y
          = (if pb.backlash_motion then 0
             else if pb.direction_bits.testBit Y_DIRECTION_BIT
             then -(pb.steps_y : Int) else (pb.steps_y : Int))
      ∧ sf.sys_position_z - s0.sys_position_z
          = (if pb.backlash_motion then 0
             else if pb.direction_bits.testBit Z_DIRECTION_BIT
             then -(pb.steps_z : Int) else (pb.steps_z : Int)) := by
  cases segs with
  | nil =>
    exfalso
    simp only [List.map_nil, List.sum_nil] at hsum
    omega
  | cons seg0 rest =>
    obtain ⟨sf, hrun, hX, hY, hZ, -⟩ :=
      block_run_fresh blk bi seg0 rest s0 hpool hnone hidx0 htail hhead hlen
        hslots (fun sg h =>
          ⟨(hsegs sg h).1, (hsegs sg h).2.2.2.1, (hsegs sg h).2.2.2.2⟩)
    have hsec2 : 2 * blk.step_event_count < U32 := by
      have h31 : (2 : Nat) ^ 31 = 2147483648 := by norm_num
      have hU : U32 = 4294967296 := rfl
      rw [hbe]
      omega
    have hsec2' : 2 ≤ blk.step_event_count := by
      rw [hbe]
      omega
    have hc0 : blk.step_event_count >>> 1 ≤ blk.step_event_count := by
      rw [Nat.shiftRight_eq_div_pow, pow_one]
      exact Nat.div_le_self _ _
    have hhalf : blk.step_event_count >>> 1 = blk.step_event_count / 2 := by
      rw [Nat.shiftRight_eq_div_pow, pow_one]
    have hbl : ∀ sg ∈ (seg0 :: rest), sg.backlash_motion = pb.backlash_motion :=
      fun sg h => (hsegs sg h).2.1
    have hL3 : ∀ sg ∈ (seg0 :: rest), sg.amass_level ≤ 3 :=
      fun sg h => (hsegs sg h).2.2.1
    have hsum3 : ((seg0 :: rest).map
        (fun sg => sg.n_step * 2 ^ (3 - sg.amass_level))).sum
        = pb.step_event_count * 8 := hsum
    have hbound : ∀ ps, ps ≤ pb.step_event_count →
        ∀ sg ∈ (seg0 :: rest),
          (ps * 8) >>> sg.amass_level ≤ blk.step_event_count := by
      intro ps hps sg h
      rw [prescaled_shift ps sg.amass_level (hL3 sg h), hbe]
      have h8 : 2 ^ (3 - sg.amass_level) ≤ 8 := by
        have h3 : 3 - sg.amass_level ≤ 3 := by omega
        calc 2 ^ (3 - sg.amass_level) ≤ 2 ^ 3 :=
              Nat.pow_le_pow_right (by norm_num) h3
          _ = 8 := by norm_num
      calc ps * 2 ^ (3 - sg.amass_level) ≤ ps * 8 :=
            Nat.mul_le_mul_left _ h8
        _ ≤ pb.step_event_count * 8 := Nat.mul_le_mul_right _ hps
    have hsumeq : ∀ ps, ((seg0 :: rest).map
        (fun sg => sg.n_step * ((ps * 8) >>> sg.amass_level))).sum
        = ps * (pb.step_event_count * 8) := by
      intro ps
      rw [segs_increment_sum ps (seg0 :: rest) hL3, hsum3]
    refine ⟨sf, hrun, ?_, ?_, ?_⟩
    · obtain ⟨K, hK1, hK2, hK3⟩ :=
        segsAxisFold_spec blk.step_event_count blk.steps_x pb.backlash_motion
          (blk.direction_bits.testBit X_DIRECTION_BIT) hsec2 (seg0 :: rest)
          (blk.step_event_count >>> 1) s0.sys_position_x hc0 hbl
          (by simpa only [hbx] using hbound pb.steps_x hpx)
      have hKval : K = pb.steps_x := by
        refine bres_count_eq blk.step_event_count K pb.steps_x _ hsec2' ?_ hK2
        rw [← hhalf, hK1]
        simp only [hbx]
        rw [hsumeq pb.steps_x, hbe]
      have hpos : sf.sys_position_x
          = (segsAxisFold blk.step_event_count blk.steps_x
              (blk.direction_bits.testBit X_DIRECTION_BIT) (seg0 :: rest)
              (blk.step_event_count >>> 1) s0.sys_position_x).2 :=
        congrArg Prod.snd hX
      rw [hpos, hK3, hKval, hbd]
      cases pb.backlash_motion with
      | true => simp
      | false =>
        cases pb.direction_bits.testBit X_DIRECTION_BIT with
        | true => simp
        | false => simp
    · obtain ⟨K, hK1, hK2, hK3⟩ :=
        segsAxisFold_spec blk.step_event_count blk.steps_y pb.backlash_motion
          (blk.direction_bits.testBit Y_DIRECTION_BIT) hsec2 (seg0 :: rest)
          (blk.step_event_count >>> 1) s0.sys_position_y hc0 hbl
          (by simpa only [hby] using hbound pb.steps_y hpy)
      have hKval : K = pb.steps_y := by
        refine bres_count_eq blk.step_event_count K pb.steps_y _ hsec2' ?_ hK2
        rw [← hhalf, hK1]
        simp only [hby]
        rw [hsumeq pb.steps_y, hbe]
      have hpos : sf.sys_position_y
          = (segsAxisFold blk.step_event_count blk.steps_y
              (blk.direction_bits.testBit Y_DIRECTION_BIT) (seg0 :: rest)
              (blk.step_event_count >>> 1) s0.sys_position_y).2 :=
        congrArg Prod.snd hY
      rw [hpos, hK3, hKval, hbd]
      cases pb.backlash_motion with
      | true => simp
      | false =>
        cases pb.direction_bits.testBit Y_DIRECTION_BIT with
        | true => simp
        | false => simp
    · obtain ⟨K, hK1, hK2, hK3⟩ :=
        segsAxisFold_spec blk.step_event_count blk.steps_z pb.backlash_motion
          (blk.direction_bits.testBit Z_DIRECTION_BIT) hsec2 (seg0 :: rest)
          (blk.step_event_count >>> 1) s0.sys_position_z hc0 hbl
          (by simpa only [hbz] using hbound pb.steps_z hpz)
      have hKval : K = pb.steps_z := by
        refine bres_count_eq blk.step_event_count K pb.steps_z _ hsec2' ?_ hK2
        rw [← hhalf, hK1]
        simp only [hbz]
        rw [hsumeq pb.steps_z, hbe]
      have hpos : sf.sys_position_z
          = (segsAxisFold blk.step_event_count blk.steps_z
              (blk.direction_bits.testBit Z_DIRECTION_BIT) (seg0 :: rest)
              (blk.step_event_count >>> 1) s0.sys_position_z).2 :=
        congrArg Prod.snd hZ
      rw [hpos, hK3, hKval, hbd]
      cases pb.backlash_motion with
      | true => simp
      | false =>
        cases pb.direction_bits.testBit Z_DIRECTION_BIT with
        | true => simp
        | false => simp

/-- Closed witness for C1: the two-step X-negative block of c1Pb,
queued as the single segment c1Seg, moves sys_position by (-2, 1, 0). -/
theorem c1_block_position_conservation_witness :
    ∃ sf, isrRun (([c1Seg].map Stepper_Segment_t.n_step).sum) c1State = some sf
      ∧ sf.sys_position_x - c1State.sys_position_x = -2
      ∧ sf.sys_position_y - c1State.sys_position_y = 1
      ∧ sf.sys_position_z - c1State.sys_position_z = 0 := by
  obtain ⟨sf, h1, h2, h3, h4⟩ :=
    c1_block_position_conservation c1Pb c1Blk 1 [c1Seg] c1State rfl rfl rfl rfl
      rfl rfl (by decide) (by decide) (by decide) (by decide) (by decide) rfl
      (by decide) (by decide) rfl (by decide)
      (by
        intro k hk
        simp only [List.length_singleton] at hk
        have hk0 : k = 0 := by omega
        subst hk0
        rfl)
      (by
        intro sg hsg
        rw [List.mem_singleton] at hsg
        subst hsg
        exact ⟨rfl, rfl, by decide, by decide, by decide⟩)
      (by decide)
  refine ⟨sf, h1, ?_, ?_, ?_⟩
  · rw [h2]
    decide
  · rw [h3]
    decide
  · rw [h4]
    decide

end GrblStepper
